import Mathlib

/-!
Shallow embedding of the sync/session core of the tab-sync-api repository.

The definitions below translate, statement by statement, the TypeScript of
`SyncService` (marker retrieval, transactional event ingestion with
deduplication, restoration handling, marker update) and `SessionService`
(session snapshot create/read/delete), together with the store semantics
those services rely on: the sqlite tables created by `runSyncMigrations`
(UNIQUE constraints, `ON DELETE CASCADE` foreign keys) with
`PRAGMA foreign_keys = ON`.

Conventions of the embedding:
- the sqlite database is a `Store`: one list of rows per table, kept in
  insertion (rowid) order, plus the autoincrement counters;
- wall-clock columns (`created_at`, `updated_at`, `synced_at` with
  `DEFAULT CURRENT_TIMESTAMP`) are omitted: nothing in the services reads
  them back;
- JavaScript truthiness coercions (`x || null`, `x ? 1 : 0`, `if (x)`)
  are made explicit through the small `js...` helpers;
- store failures are injected through an `Oracle`: a per-event insert
  failure (caught by the per-event `try` in `processEvents`), a per-record
  restoration insert failure (caught inside `handleRestorations`), and a
  hard failure of the marker `UPDATE` (not caught: it aborts the
  transaction). `BEGIN TRANSACTION` / `COMMIT` / `ROLLBACK` are modelled
  by returning, on the thrown path, the store as it was when the
  transaction began.
-/

namespace TabSync

/-! ## Definitions: the embedded services and their store -/

/-- JS `x || d` for an optional number: both `undefined` and `0` are falsy. -/
def jsOrInt (x : Option Int) (d : Int) : Int :=
  match x with
  | some n => if n == 0 then d else n
  | none => d

/-- JS `x || null` for an optional number stored into a nullable column. -/
def jsIntOrNull (x : Option Int) : Option Int :=
  match x with
  | some n => if n == 0 then none else some n
  | none => none

/-- JS `x || d` for an optional string: both `undefined` and `""` are falsy. -/
def jsOrStr (x : Option String) (d : String) : String :=
  match x with
  | some s => if s == "" then d else s
  | none => d

/-- JS `x || null` for an optional string stored into a nullable column. -/
def jsStrOrNull (x : Option String) : Option String :=
  match x with
  | some s => if s == "" then none else some s
  | none => none

/-- JS `x ? 1 : 0` for an optional boolean. -/
def jsTruthyBit (x : Option Bool) : Int :=
  if x == some true then 1 else 0

/-- JS `x !== undefined ? (x ? 1 : 0) : null` for an optional boolean. -/
def jsBitOrNull (x : Option Bool) : Option Int :=
  x.map (fun b => if b then 1 else 0)

/-- JS `a || b || null` on two optional strings (first truthy one wins). -/
def jsFirstTruthy (a b : Option String) : Option String :=
  match jsStrOrNull a with
  | some s => some s
  | none => jsStrOrNull b

/-- An incoming sync event, as validated by the route's schema: `eventType`,
`timestamp` and `instanceId` are required, everything else optional.
`metadata` is kept as an opaque optional string (`z.any()` in the schema). -/
structure Event where
  eventType : String
  documentId : Option String := none
  timestamp : Int
  instanceId : String := ""
  tabId : Option Int := none
  windowId : Option Int := none
  url : Option String := none
  title : Option String := none
  navigationType : Option String := none
  fromAddressBar : Option Bool := none
  transitionType : Option String := none
  transitionQualifiers : Option (List String) := none
  groupId : Option Int := none
  groupTitle : Option String := none
  groupName : Option String := none
  groupColor : Option String := none
  color : Option String := none
  startTime : Option Int := none
  endTime : Option Int := none
  durationMs : Option Int := none
  wasActive : Option Bool := none
  wasWindowFocused : Option Bool := none
  userWasActive : Option Bool := none
  tabCount : Option Int := none
  windowCount : Option Int := none
  originalSessionId : Option String := none
  newWindowId : Option Int := none
  metadata : Option String := none
  deriving Repr, DecidableEq

/-- A restoration record accompanying a batch (`restorationMetadata` entries). -/
structure Restoration where
  originalSessionId : String
  newWindowId : Option Int := none
  deriving Repr, DecidableEq

/-- A row of the `sync_markers` table (autoincrement id and the wall-clock
columns omitted; `UNIQUE(user_id, instance_id)` is a schema invariant). -/
structure MarkerRow where
  userId : Int
  instanceId : String
  lastEventTimestamp : Int
  lastSessionId : Option String := none
  deriving Repr, DecidableEq

/-- A row of the `events` table, with the values exactly as computed by
`SyncService.insertEvent` (the JSON text of `transition_qualifiers` is
modelled by the encoded list itself, and the JSON text of `metadata` by
the encoded optional string: nothing decodes them). -/
structure EventRow where
  id : Nat
  userId : Int
  instanceId : String
  eventType : String
  documentId : Option String
  tabId : Option Int
  windowId : Option Int
  url : Option String
  title : Option String
  navigationType : Option String
  fromAddressBar : Int
  transitionType : Option String
  transitionQualifiers : Option (List String)
  startTime : Option Int
  endTime : Option Int
  durationMs : Option Int
  wasActive : Option Int
  wasWindowFocused : Option Int
  userWasActive : Option Int
  tabCount : Option Int
  windowCount : Option Int
  groupId : Option Int
  groupName : Option String
  groupColor : Option String
  originalSessionId : Option String
  newWindowId : Option Int
  timestamp : Int
  metadata : Option String
  deriving Repr, DecidableEq

/-- A row of the `sessions` table. `tags` holds `JSON.stringify(tags || [])`;
it is modelled by the encoded list (only `JSON.parse` ever reads it back). -/
structure SessionRow where
  id : Nat
  userId : Int
  sessionId : String
  instanceId : String
  name : Option String
  description : Option String
  tags : List String
  capturedAt : Int
  tabCount : Int
  windowCount : Int
  deriving Repr, DecidableEq

/-- A row of the `session_windows` table. -/
structure SessionWindowRow where
  id : Nat
  sessionId : Nat
  windowId : Int
  focused : Int
  incognito : Int
  type : Option String
  windowOrder : Int
  deriving Repr, DecidableEq

/-- A row of the `session_tabs` table. -/
structure SessionTabRow where
  id : Nat
  sessionWindowId : Nat
  tabId : Int
  url : String
  title : Option String
  tabIndex : Int
  active : Int
  pinned : Int
  groupId : Option Int
  favIconUrl : Option String
  deriving Repr, DecidableEq

/-- A row of the `session_restorations` table (`restored_at` omitted:
it is `DEFAULT CURRENT_TIMESTAMP` wall-clock). -/
structure RestorationRow where
  id : Nat
  userId : Int
  instanceId : String
  originalSessionId : String
  newWindowId : Option Int
  deriving Repr, DecidableEq

/-- The sqlite database: each table as its list of rows in rowid order,
plus the autoincrement counters (sqlite rowids start at 1). -/
structure Store where
  markers : List MarkerRow := []
  events : List EventRow := []
  sessions : List SessionRow := []
  sessionWindows : List SessionWindowRow := []
  sessionTabs : List SessionTabRow := []
  restorations : List RestorationRow := []
  nextEventId : Nat := 1
  nextSessionId : Nat := 1
  nextWindowId : Nat := 1
  nextTabId : Nat := 1
  nextRestorationId : Nat := 1
  deriving Repr, DecidableEq

/-- The empty database right after the migrations. -/
def Store.empty : Store := {}

/-- `SELECT * FROM sync_markers WHERE user_id = ? AND instance_id = ?`
(`dbGet` returns the first matching row). -/
def findMarker (s : Store) (userId : Int) (instanceId : String) : Option MarkerRow :=
  s.markers.find? (fun m => m.userId == userId && m.instanceId == instanceId)

/-- `SELECT COUNT(*) FROM events WHERE user_id = ? AND instance_id = ?`. -/
def countAllEvents (s : Store) (userId : Int) (instanceId : String) : Nat :=
  (s.events.filter (fun e => e.userId == userId && e.instanceId == instanceId)).length

/-- `SELECT COUNT(*) FROM events WHERE user_id = ? AND instance_id = ?
AND timestamp > ?`. -/
def countEventsAfter (s : Store) (userId : Int) (instanceId : String) (ts : Int) : Nat :=
  (s.events.filter
    (fun e => e.userId == userId && e.instanceId == instanceId && ts < e.timestamp)).length

/-- The value `SyncService.getMarker` resolves with. -/
structure SyncMarker where
  instanceId : String
  lastEventTimestamp : Int
  lastSessionId : Option String := none
  firstSync : Bool
  eventCountToSync : Nat
  deriving Repr, DecidableEq

/-- `SyncService.getMarker(instanceId, userId)`: look the marker up; when
absent, insert a fresh marker with cursor 0 and report a first sync with the
count of all existing events for the (user, instance) pair; when present,
report the stored cursor and the count of strictly newer events, touching
nothing. (`marker.last_session_id || undefined` is the JS falsy coercion.) -/
def getMarker (s : Store) (instanceId : String) (userId : Int) : SyncMarker × Store :=
  match findMarker s userId instanceId with
  | none =>
    let s1 : Store := { s with markers := s.markers ++ [⟨userId, instanceId, 0, none⟩] }
    (⟨instanceId, 0, none, true, countAllEvents s1 userId instanceId⟩, s1)
  | some marker =>
    (⟨instanceId, marker.lastEventTimestamp, jsStrOrNull marker.lastSessionId, false,
      countEventsAfter s userId instanceId marker.lastEventTimestamp⟩, s)

/-- Injected store failures. `insertEventOk` drives the per-event `try` in
`processEvents`, `insertRestorationOk` the per-record `try` in
`handleRestorations`, and `updateMarkerOk = false` makes the marker `UPDATE`
throw, which is the transaction-fatal (hard) failure path. -/
structure Oracle where
  insertEventOk : Event → Bool := fun _ => true
  insertRestorationOk : Restoration → Bool := fun _ => true
  updateMarkerOk : Bool := true

/-- The oracle of a run in which the store never fails. -/
def noFailures : Oracle := {}

/-- `SELECT id FROM events WHERE instance_id = ? AND document_id = ? LIMIT 1`
viewed as a boolean: does a row with this `(instance_id, document_id)` exist?
(No `user_id` filter in the source query.) -/
def hasDup (s : Store) (instanceId : String) (docId : String) : Bool :=
  s.events.any (fun e => e.instanceId == instanceId && e.documentId == some docId)

/-- The `events` row written by `SyncService.insertEvent`, field for field
(JS truthiness made explicit; note `fromAddressBar ? 1 : 0` stores 0, not
null, for an absent flag, while the three activity flags test
`!== undefined`). `group_name` is read from `groupTitle`, `group_color`
from `color || groupColor`. -/
def eventRowOf (id : Nat) (userId : Int) (instanceId : String) (e : Event) : EventRow where
  id := id
  userId := userId
  instanceId := instanceId
  eventType := e.eventType
  documentId := jsStrOrNull e.documentId
  tabId := jsIntOrNull e.tabId
  windowId := jsIntOrNull e.windowId
  url := jsStrOrNull e.url
  title := jsStrOrNull e.title
  navigationType := jsStrOrNull e.navigationType
  fromAddressBar := jsTruthyBit e.fromAddressBar
  transitionType := jsStrOrNull e.transitionType
  transitionQualifiers := e.transitionQualifiers
  startTime := jsIntOrNull e.startTime
  endTime := jsIntOrNull e.endTime
  durationMs := jsIntOrNull e.durationMs
  wasActive := jsBitOrNull e.wasActive
  wasWindowFocused := jsBitOrNull e.wasWindowFocused
  userWasActive := jsBitOrNull e.userWasActive
  tabCount := jsIntOrNull e.tabCount
  windowCount := jsIntOrNull e.windowCount
  groupId := jsIntOrNull e.groupId
  groupName := jsStrOrNull e.groupTitle
  groupColor := jsFirstTruthy e.color e.groupColor
  originalSessionId := jsStrOrNull e.originalSessionId
  newWindowId := jsIntOrNull e.newWindowId
  timestamp := e.timestamp
  metadata := jsStrOrNull e.metadata

/-- `SyncService.insertEvent`: append the row, advancing the autoincrement. -/
def insertEvent (s : Store) (userId : Int) (instanceId : String) (e : Event) : Store :=
  { s with events := s.events ++ [eventRowOf s.nextEventId userId instanceId e],
           nextEventId := s.nextEventId + 1 }

/-- The per-event loop of `processEvents`: for each event in arrival order,
`if (event.documentId)` (JS truthiness: an empty string skips the check) look
for an existing `(instance_id, document_id)` row and count a duplicate;
otherwise attempt the insert, counting it as processed on success and
pushing the error message on a (soft) per-event failure.
Returns (store, processed, duplicates, error messages). -/
def processLoop (ora : Oracle) (userId : Int) (instanceId : String) :
    List Event → Store → Nat → Nat → List String → Store × Nat × Nat × List String
  | [], s, processed, duplicates, errors => (s, processed, duplicates, errors)
  | e :: rest, s, processed, duplicates, errors =>
    let isDup : Bool :=
      match jsStrOrNull e.documentId with
      | some d => hasDup s instanceId d
      | none => false
    if isDup then
      processLoop ora userId instanceId rest s processed (duplicates + 1) errors
    else if ora.insertEventOk e then
      processLoop ora userId instanceId rest
        (insertEvent s userId instanceId e) (processed + 1) duplicates errors
    else
      processLoop ora userId instanceId rest s processed duplicates
        (errors ++ ["insert failed"])

/-- The `session_restorations` row written by `handleRestorations`
(`restoration.newWindowId || null` is the JS falsy coercion). -/
def restorationRowOf (id : Nat) (userId : Int) (instanceId : String)
    (r : Restoration) : RestorationRow where
  id := id
  userId := userId
  instanceId := instanceId
  originalSessionId := r.originalSessionId
  newWindowId := jsIntOrNull r.newWindowId

/-- `SyncService.handleRestorations`: insert one row per record,
unconditionally (no deduplication); a failed insert is logged and skipped,
the loop continues; returns the count of successful inserts. -/
def handleRestorations (ora : Oracle) (userId : Int) (instanceId : String) :
    List Restoration → Store → Store × Nat
  | [], s => (s, 0)
  | r :: rest, s =>
    if ora.insertRestorationOk r then
      let s1 : Store :=
        { s with restorations :=
                   s.restorations ++ [restorationRowOf s.nextRestorationId userId instanceId r],
                 nextRestorationId := s.nextRestorationId + 1 }
      let out := handleRestorations ora userId instanceId rest s1
      (out.1, out.2 + 1)
    else
      handleRestorations ora userId instanceId rest s

/-- `UPDATE sync_markers SET last_event_timestamp = ? WHERE user_id = ?
AND instance_id = ?`: every matching row (at most one under the schema's
UNIQUE constraint) gets the new value, matching zero rows is a no-op. -/
def updateMarker (s : Store) (userId : Int) (instanceId : String) (maxTimestamp : Int) :
    Store :=
  { s with markers := s.markers.map (fun m =>
      if m.userId == userId && m.instanceId == instanceId then
        { m with lastEventTimestamp := maxTimestamp }
      else m) }

/-- `Math.max(...events.map(e => e.timestamp))` over a non-empty batch
(the empty case is unreachable: the call is guarded by `events.length > 0`). -/
def batchMaxTimestamp : List Event → Int
  | [] => 0
  | e :: rest => rest.foldl (fun acc x => max acc x.timestamp) e.timestamp

/-- The value `processEvents` resolves with. -/
structure SyncResult where
  instanceId : String
  eventsReceived : Nat
  eventsProcessed : Nat
  duplicateCount : Nat
  restorationMappings : Nat
  message : String
  deriving Repr, DecidableEq

/-- The `SyncResult` built at the end of `processEvents`. -/
def mkSyncResult (instanceId : String) (received processed duplicates mappings : Nat)
    (errors : List String) : SyncResult where
  instanceId := instanceId
  eventsReceived := received
  eventsProcessed := processed
  duplicateCount := duplicates
  restorationMappings := mappings
  message :=
    if errors.length > 0 then
      "Processed with " ++ toString errors.length ++ " errors"
    else
      "Events synced successfully"

/-- Outcome of a call that wraps a transaction: either the result together
with the committed store, or a thrown error with the store as the rollback
left it. -/
inductive SyncOutcome where
  | ok (result : SyncResult) (store : Store)
  | thrown (store : Store)
  deriving Repr, DecidableEq

/-- `SyncService.processEvents(instanceId, userId, events, restorationMetadata)`:
inside one transaction, run the per-event loop, hand any restoration metadata
to `handleRestorations`, and when the batch is non-empty set the marker to
the batch's maximum timestamp — unconditionally. A hard failure of that
`UPDATE` rolls the whole transaction back (the store reverts to its state at
`BEGIN`) and the error is rethrown. -/
def processEvents (ora : Oracle) (instanceId : String) (userId : Int)
    (events : List Event) (restorationMetadata : List Restoration) (s0 : Store) :
    SyncOutcome :=
  let loopOut := processLoop ora userId instanceId events s0 0 0 []
  let s1 := loopOut.1
  let processed := loopOut.2.1
  let duplicates := loopOut.2.2.1
  let errors := loopOut.2.2.2
  let restOut :=
    if restorationMetadata.length > 0 then
      handleRestorations ora userId instanceId restorationMetadata s1
    else (s1, 0)
  let s2 := restOut.1
  let restorationMappings := restOut.2
  if events.length > 0 then
    if ora.updateMarkerOk then
      .ok (mkSyncResult instanceId events.length processed duplicates restorationMappings errors)
        (updateMarker s2 userId instanceId (batchMaxTimestamp events))
    else
      .thrown s0
  else
    .ok (mkSyncResult instanceId events.length processed duplicates restorationMappings errors) s2

/-- A tab of the snapshot supplied to `createSession`. The route validates
`windows` only as `z.array(z.any())`, so every field except `url` can be
absent; optional fields are `Option`s here. -/
structure TabInput where
  id : Option Int := none
  url : String
  title : Option String := none
  index : Option Int := none
  active : Option Bool := none
  pinned : Option Bool := none
  groupId : Option Int := none
  favIconUrl : Option String := none
  deriving Repr, DecidableEq

/-- A window of the snapshot supplied to `createSession`. -/
structure WindowInput where
  id : Option Int := none
  focused : Option Bool := none
  incognito : Option Bool := none
  type : Option String := none
  tabs : Option (List TabInput) := none
  deriving Repr, DecidableEq

/-- The body accepted by `createSession` (already past the route's schema:
`name` required, the rest optional). -/
structure SessionData where
  name : String
  description : Option String := none
  tags : Option (List String) := none
  windows : Option (List WindowInput) := none
  totalTabs : Option Int := none
  totalWindows : Option Int := none
  deriving Repr, DecidableEq

/-- The value `createSession` resolves with (the raw `sessionData` fields,
not the coerced column values). -/
structure CreateSessionResult where
  sessionId : String
  name : String
  description : Option String
  tags : Option (List String)
  totalTabs : Option Int
  totalWindows : Option Int
  capturedAt : Int
  deriving Repr, DecidableEq

/-- Outcome of a `SessionService` call wrapping a transaction. -/
inductive SessionOutcome where
  | ok (result : CreateSessionResult) (store : Store)
  | thrown (store : Store)
  deriving Repr, DecidableEq

/-- The `sessions` row written by `createSession` (JS falsy coercions made
explicit: `description || null`, `tags || []`, `totalTabs || 0`,
`totalWindows || 0`). -/
def sessionRowOf (id : Nat) (userId : Int) (instanceId sessionId : String)
    (d : SessionData) (now : Int) : SessionRow where
  id := id
  userId := userId
  sessionId := sessionId
  instanceId := instanceId
  name := some d.name
  description := jsStrOrNull d.description
  tags := d.tags.getD []
  capturedAt := now
  tabCount := jsOrInt d.totalTabs 0
  windowCount := jsOrInt d.totalWindows 0

/-- The `session_windows` row written for the window at order `wo`
(`window.id || windowOrder`, `focused ? 1 : 0`, `incognito ? 1 : 0`,
`window.type || 'normal'`). -/
def windowRowOf (id : Nat) (sessionId : Nat) (wo : Int) (w : WindowInput) :
    SessionWindowRow where
  id := id
  sessionId := sessionId
  windowId := jsOrInt w.id wo
  focused := jsTruthyBit w.focused
  incognito := jsTruthyBit w.incognito
  type := some (jsOrStr w.type "normal")
  windowOrder := wo

/-- The `session_tabs` row written for one tab (`tab.id || 0`,
`tab.title || null`, `tab.index || 0`, `active ? 1 : 0`, `pinned ? 1 : 0`,
`tab.groupId || null`, `tab.favIconUrl || null`). -/
def tabRowOf (id : Nat) (sessionWindowId : Nat) (t : TabInput) : SessionTabRow where
  id := id
  sessionWindowId := sessionWindowId
  tabId := jsOrInt t.id 0
  url := t.url
  title := jsStrOrNull t.title
  tabIndex := jsOrInt t.index 0
  active := jsTruthyBit t.active
  pinned := jsTruthyBit t.pinned
  groupId := jsIntOrNull t.groupId
  favIconUrl := jsStrOrNull t.favIconUrl

/-- The inner tab loop of `createSession`: insert each tab of a window in
list order against the looked-up `session_windows` rowid. -/
def insertTabs (sessionWindowId : Nat) : List TabInput → Store → Store
  | [], s => s
  | t :: rest, s =>
    insertTabs sessionWindowId rest
      { s with sessionTabs := s.sessionTabs ++ [tabRowOf s.nextTabId sessionWindowId t],
               nextTabId := s.nextTabId + 1 }

/-- The window loop of `createSession`: insert the `session_windows` row for
order `wo`, re-read its rowid via
`SELECT id FROM session_windows WHERE session_id = ? AND window_order = ?`
(first matching row), insert that window's tabs, continue with `wo + 1`.
`none` is the JS `TypeError` path (`sessionWindow.id` with no row found),
which the caller turns into a rollback. -/
def insertWindows (sessionId : Nat) : List WindowInput → Int → Store → Option Store
  | [], _, s => some s
  | w :: rest, wo, s =>
    let s1 : Store :=
      { s with sessionWindows :=
                 s.sessionWindows ++ [windowRowOf s.nextWindowId sessionId wo w],
               nextWindowId := s.nextWindowId + 1 }
    match s1.sessionWindows.find?
        (fun r => r.sessionId == sessionId && r.windowOrder == wo) with
    | none => none
    | some sessionWindow =>
      insertWindows sessionId rest (wo + 1) (insertTabs sessionWindow.id (w.tabs.getD []) s1)

/-- `SessionService.createSession(userId, instanceId, sessionData)`. The
generated identifier (`Date.now()` plus a random suffix) and the clock
reading are passed in as `sessionId` and `now`. Inside one transaction:
insert the `sessions` row (a `UNIQUE(user_id, session_id)` violation throws
and rolls back), re-read its rowid via
`SELECT id FROM sessions WHERE session_id = ?` (no user filter: first row
with that `session_id` string), then insert the windows and their tabs in
supplied order; any failure rolls the whole transaction back. -/
def createSession (s0 : Store) (userId : Int) (instanceId : String) (d : SessionData)
    (sessionId : String) (now : Int) : SessionOutcome :=
  if s0.sessions.any (fun r => r.userId == userId && r.sessionId == sessionId) then
    .thrown s0
  else
    let s1 : Store :=
      { s0 with sessions :=
                  s0.sessions ++ [sessionRowOf s0.nextSessionId userId instanceId sessionId d now],
                nextSessionId := s0.nextSessionId + 1 }
    match s1.sessions.find? (fun r => r.sessionId == sessionId) with
    | none => .thrown s0
    | some session =>
      match insertWindows session.id (d.windows.getD []) 0 s1 with
      | none => .thrown s0
      | some s2 =>
        .ok ⟨sessionId, d.name, d.description, d.tags, d.totalTabs, d.totalWindows, now⟩ s2

/-- Stable insertion (earlier rows stay before later rows of equal key),
the building block of the `ORDER BY` model. -/
def insertByKey (key : α → Int) (x : α) : List α → List α
  | [] => [x]
  | y :: rest => if key x ≤ key y then x :: y :: rest else y :: insertByKey key x rest

/-- `ORDER BY key` over rows listed in rowid order, as a stable sort (sqlite
returns equal-key rows of these unindexed scans in rowid order). -/
def sortByKey (key : α → Int) : List α → List α
  | [] => []
  | x :: rest => insertByKey key x (sortByKey key rest)

/-- A tab as shaped by `getSession` (`Boolean(t.active)`, `Boolean(t.pinned)`
on the stored 0/1 integers). -/
structure TabOut where
  tabId : Int
  url : String
  title : Option String
  index : Int
  active : Bool
  pinned : Bool
  groupId : Option Int
  favIconUrl : Option String
  deriving Repr, DecidableEq

/-- A window as shaped by `getSession`. -/
structure WindowOut where
  windowId : Int
  focused : Bool
  incognito : Bool
  type : Option String
  tabs : List TabOut
  deriving Repr, DecidableEq

/-- The session tree as shaped by `getSession`. -/
structure SessionOut where
  sessionId : String
  name : Option String
  description : Option String
  tags : List String
  capturedAt : Int
  tabCount : Int
  windowCount : Int
  windows : List WindowOut
  deriving Repr, DecidableEq

/-- The tab mapping in `getSession`'s result assembly. -/
def tabOutOfRow (t : SessionTabRow) : TabOut where
  tabId := t.tabId
  url := t.url
  title := t.title
  index := t.tabIndex
  active := t.active != 0
  pinned := t.pinned != 0
  groupId := t.groupId
  favIconUrl := t.favIconUrl

/-- The window mapping in `getSession`'s result assembly: the window's tabs
are read with `ORDER BY tab_index`. -/
def windowOutOfRow (s : Store) (w : SessionWindowRow) : WindowOut where
  windowId := w.windowId
  focused := w.focused != 0
  incognito := w.incognito != 0
  type := w.type
  tabs :=
    (sortByKey (fun t => t.tabIndex)
      (s.sessionTabs.filter (fun t => t.sessionWindowId == w.id))).map tabOutOfRow

/-- `SessionService.getSession(userId, sessionId)`: resolve the session row
for this user, read its windows with `ORDER BY window_order` and each
window's tabs with `ORDER BY tab_index`, and reassemble the nested tree;
`none` (a not-found signal, not an error) when the id does not resolve. -/
def getSession (s : Store) (userId : Int) (sessionId : String) : Option SessionOut :=
  match s.sessions.find? (fun r => r.userId == userId && r.sessionId == sessionId) with
  | none => none
  | some session =>
    some
      { sessionId := session.sessionId
        name := session.name
        description := session.description
        tags := session.tags
        capturedAt := session.capturedAt
        tabCount := session.tabCount
        windowCount := session.windowCount
        windows :=
          (sortByKey (fun w => w.windowOrder)
            (s.sessionWindows.filter (fun w => w.sessionId == session.id))).map
            (windowOutOfRow s) }

/-- `SessionService.deleteSession(userId, sessionId)`:
`DELETE FROM sessions WHERE user_id = ? AND session_id = ?`, with the store's
`ON DELETE CASCADE` foreign keys active (`PRAGMA foreign_keys = ON` in
`db.ts`, cascading constraints from `runSyncMigrations`): deleting a session
row deletes its `session_windows` rows, and deleting those deletes their
`session_tabs` rows. -/
def deleteSession (s : Store) (userId : Int) (sessionId : String) : Store :=
  let dead := s.sessions.filter (fun r => r.userId == userId && r.sessionId == sessionId)
  let deadWindows := s.sessionWindows.filter (fun w => dead.any (fun r => r.id == w.sessionId))
  { s with
    sessions := s.sessions.filter
      (fun r => !(r.userId == userId && r.sessionId == sessionId)),
    sessionWindows := s.sessionWindows.filter
      (fun w => !(dead.any (fun r => r.id == w.sessionId))),
    sessionTabs := s.sessionTabs.filter
      (fun t => !(deadWindows.any (fun w => w.id == t.sessionWindowId))) }

/-- The event rows that a run of inserts appends, starting at rowid `n`. -/
def eventRowsFrom (n : Nat) (u : Int) (i : String) : List Event → List EventRow
  | [] => []
  | e :: rest => eventRowOf n u i e :: eventRowsFrom (n + 1) u i rest

/-- Duplicate check over a bare row list (so that it splits over `++`). -/
def hasDupList (l : List EventRow) (instanceId : String) (docId : String) : Bool :=
  l.any (fun e => e.instanceId == instanceId && e.documentId == some docId)

/-- The restoration rows a `handleRestorations` run appends, starting at
rowid `n`: one row per record whose insert succeeds, in record order. -/
def restorationRowsFrom (ora : Oracle) (u : Int) (i : String) (n : Nat) :
    List Restoration → List RestorationRow
  | [] => []
  | r :: rest =>
    if ora.insertRestorationOk r then
      restorationRowOf n u i r :: restorationRowsFrom ora u i (n + 1) rest
    else
      restorationRowsFrom ora u i n rest

/-- The stored cursor of the (user, instance) marker, when a marker exists. -/
def markerValue (s : Store) (u : Int) (i : String) : Option Int :=
  (findMarker s u i).map (fun m => m.lastEventTimestamp)

/-- The final store of a sync call, on both the committed and the
rolled-back path. -/
def storeAfter (o : SyncOutcome) : Store :=
  match o with
  | .ok _ s => s
  | .thrown s => s

def c1e1 : Event := { eventType := "navigation", documentId := some "d1", timestamp := 1000 }

def c1e2 : Event := { eventType := "navigation", documentId := some "d2", timestamp := 500 }

def c1s0 : Store := (getMarker Store.empty "I1" 1).2

def c1s1 : Store := storeAfter (processEvents noFailures "I1" 1 [c1e1] [] c1s0)

def c1s2 : Store := storeAfter (processEvents noFailures "I1" 1 [c1e2] [] c1s1)

def c1r2 : SyncResult :=
  { instanceId := "I1", eventsReceived := 1, eventsProcessed := 1, duplicateCount := 0,
    restorationMappings := 0, message := "Events synced successfully" }

def c3ora : Oracle := { updateMarkerOk := false }

def c3e : Event := { eventType := "tab-created", documentId := some "c3d", timestamp := 42 }

def c3s : Store := (getMarker Store.empty "I3" 7).2

def c9e : Event := { eventType := "navigation", documentId := some "c9d", timestamp := 5 }

def c9s' : Store := storeAfter (processEvents noFailures "I9" 9 [c9e] [] Store.empty)

def c10e : Event := { eventType := "window-created", timestamp := 11 }

def c10s1 : Store := storeAfter (processEvents noFailures "IA" 3 [c10e] [] Store.empty)

def c2ei : Event := { eventType := "navigation", documentId := some "c2d", timestamp := 10 }

def c2wa : Event := { eventType := "navigation", documentId := some "w1", timestamp := 100 }

def c2wb : Event := { eventType := "tab-created", documentId := some "w2", timestamp := 200 }

def c4ora : Oracle := { insertEventOk := fun _ => false }

def c4e : Event := { eventType := "time-entry", timestamp := 777 }

def c4s : Store := (getMarker Store.empty "I4" 2).2

def c5marked : Store := { Store.empty with markers := [⟨4, "I5", 0, none⟩] }

/-- The supplied tab, reshaped the way `getSession` reports tabs: this is
the "same field values as supplied" reading of the round-trip claim. -/
def TabInput.asOutput (t : TabInput) : TabOut where
  tabId := t.id.getD 0
  url := t.url
  title := t.title
  index := t.index.getD 0
  active := t.active.getD false
  pinned := t.pinned.getD false
  groupId := t.groupId
  favIconUrl := t.favIconUrl

/-- The supplied window, reshaped the way `getSession` reports windows. -/
def WindowInput.asOutput (w : WindowInput) : WindowOut where
  windowId := w.id.getD 0
  focused := w.focused.getD false
  incognito := w.incognito.getD false
  type := w.type
  tabs := (w.tabs.getD []).map TabInput.asOutput

/-- A supplied tab at position `k` of its window survives the JS falsy
coercions of `createSession` and the `ORDER BY tab_index` read-back exactly
when: it has an explicit id and explicit booleans, its `index` equals its
list position, and no string/number field holds a falsy value that the
insert would coerce to a default. -/
def tabSafe (k : Nat) (t : TabInput) : Bool :=
  t.id.isSome && t.index == some (k : Int) && t.title != some "" &&
  t.active.isSome && t.pinned.isSome && t.groupId != some 0 && t.favIconUrl != some ""

def tabsSafeFrom (k : Nat) : List TabInput → Bool
  | [] => true
  | t :: rest => tabSafe k t && tabsSafeFrom (k + 1) rest

/-- A supplied window survives the coercions exactly when its id is an
explicit non-zero number, its type an explicit non-empty string, its
booleans explicit, and its tabs are safe at their positions. -/
def windowSafe (w : WindowInput) : Bool :=
  (match w.id with | some k => k != 0 | none => false) &&
  w.focused.isSome && w.incognito.isSome &&
  (match w.type with | some ty => ty != "" | none => false) &&
  tabsSafeFrom 0 (w.tabs.getD [])

def windowsSafe : List WindowInput → Bool
  | [] => true
  | w :: rest => windowSafe w && windowsSafe rest

/-- The `session_tabs` rows of one window's tab list, rowids from `tid`. -/
def tabRowsFrom (tid : Nat) (swid : Nat) : List TabInput → List SessionTabRow
  | [] => []
  | t :: rest => tabRowOf tid swid t :: tabRowsFrom (tid + 1) swid rest

/-- The `session_windows` rows of a window list, rowids from `wid`,
orders from `wo`. -/
def windowRowsFrom (wid : Nat) (sid : Nat) (wo : Int) :
    List WindowInput → List SessionWindowRow
  | [] => []
  | w :: rest => windowRowOf wid sid wo w :: windowRowsFrom (wid + 1) sid (wo + 1) rest

/-- All `session_tabs` rows inserted for a window list: tab rowids from
`tid`, window rowids from `wid`. -/
def sessionTabRowsFrom (tid : Nat) (wid : Nat) : List WindowInput → List SessionTabRow
  | [] => []
  | w :: rest =>
    tabRowsFrom tid wid (w.tabs.getD []) ++
      sessionTabRowsFrom (tid + (w.tabs.getD []).length) (wid + 1) rest

/-- The number of tab rows a window list inserts. -/
def totalTabCount : List WindowInput → Nat
  | [] => 0
  | w :: rest => (w.tabs.getD []).length + totalTabCount rest

def sessionStoreAfter (o : SessionOutcome) : Store :=
  match o with
  | .ok _ s => s
  | .thrown s => s

def c6tab : TabInput :=
  { id := some 1, url := "https://a.com", title := some "", index := some 0,
    active := some true, pinned := some false }

def c6win : WindowInput :=
  { id := some 5, focused := some true, incognito := some false, type := some "normal",
    tabs := some [c6tab] }

def c6data : SessionData := { name := "n", windows := some [c6win] }

def c6store : Store := sessionStoreAfter (createSession Store.empty 1 "I6" c6data "s6" 100)

def c6wtab1 : TabInput :=
  { id := some 7, url := "https://a.com", title := some "A", index := some 0,
    active := some true, pinned := some false }

def c6wtab2 : TabInput :=
  { id := some 8, url := "https://b.com", title := none, index := some 1,
    active := some false, pinned := some true, groupId := some 2, favIconUrl := some "f" }

def c6wwin : WindowInput :=
  { id := some 3, focused := some true, incognito := some false, type := some "normal",
    tabs := some [c6wtab1, c6wtab2] }

def c6wdata : SessionData := { name := "w", windows := some [c6wwin] }

/-! ## Theorems -/

theorem hasDup_eq_hasDupList (s : Store) (i d : String) :
    hasDup s i d = hasDupList s.events i d := rfl

theorem hasDupList_append (l1 l2 : List EventRow) (i d : String) :
    hasDupList (l1 ++ l2) i d = (hasDupList l1 i d || hasDupList l2 i d) := by
  simp [hasDupList, List.any_append]

theorem eventRowsFrom_length (n : Nat) (u : Int) (i : String) (events : List Event) :
    (eventRowsFrom n u i events).length = events.length := by
  induction events generalizing n with
  | nil => rfl
  | cons e rest ih => simp [eventRowsFrom, ih]

theorem insertEvent_events (s : Store) (u : Int) (i : String) (e : Event) :
    (insertEvent s u i e).events = s.events ++ [eventRowOf s.nextEventId u i e] := rfl

theorem insertEvent_events_length (s : Store) (u : Int) (i : String) (e : Event) :
    (insertEvent s u i e).events.length = s.events.length + 1 := by
  simp [insertEvent_events]

/-- Frame and accounting invariant of the per-event loop: only `events` and
its rowid counter change; every processed event is one inserted row; the
processed, duplicate and error tallies account for the whole batch. -/
theorem processLoop_frame (ora : Oracle) (u : Int) (i : String) (events : List Event)
    (s : Store) (p d : Nat) (errs : List String) :
    (processLoop ora u i events s p d errs).1.markers = s.markers ∧
    (processLoop ora u i events s p d errs).1.sessions = s.sessions ∧
    (processLoop ora u i events s p d errs).1.sessionWindows = s.sessionWindows ∧
    (processLoop ora u i events s p d errs).1.sessionTabs = s.sessionTabs ∧
    (processLoop ora u i events s p d errs).1.restorations = s.restorations ∧
    (processLoop ora u i events s p d errs).1.events.length + p =
      s.events.length + (processLoop ora u i events s p d errs).2.1 ∧
    (processLoop ora u i events s p d errs).2.1 + (processLoop ora u i events s p d errs).2.2.1 +
        (processLoop ora u i events s p d errs).2.2.2.length =
      p + d + errs.length + events.length := by
  induction events generalizing s p d errs with
  | nil => simp [processLoop]
  | cons e rest ih =>
    simp only [processLoop]
    by_cases hdup : (match jsStrOrNull e.documentId with
      | some dd => hasDup s i dd
      | none => false) = true
    · rw [if_pos hdup]
      have h := ih s p (d + 1) errs
      refine ⟨h.1, h.2.1, h.2.2.1, h.2.2.2.1, h.2.2.2.2.1, h.2.2.2.2.2.1, ?_⟩
      have := h.2.2.2.2.2.2
      simp only [List.length_cons]
      omega
    · rw [if_neg (by simpa using hdup)]
      by_cases hins : ora.insertEventOk e = true
      · rw [if_pos hins]
        have h := ih (insertEvent s u i e) (p + 1) d errs
        refine ⟨h.1, h.2.1, h.2.2.1, h.2.2.2.1, h.2.2.2.2.1, ?_, ?_⟩
        · have := h.2.2.2.2.2.1
          simp only [insertEvent_events_length] at this
          omega
        · have := h.2.2.2.2.2.2
          simp only [List.length_cons]
          omega
      · rw [if_neg hins]
        have h := ih s p d (errs ++ ["insert failed"])
        refine ⟨h.1, h.2.1, h.2.2.1, h.2.2.2.1, h.2.2.2.2.1, h.2.2.2.2.2.1, ?_⟩
        have := h.2.2.2.2.2.2
        simp only [List.length_append, List.length_cons, List.length_nil] at this ⊢
        omega

/-- When every event of the batch carries a truthy `documentId` that is
fresh in the store and not repeated inside the batch, and no insert fails,
the loop inserts every event verbatim: the event table gets one row per
event and the tallies count the whole batch as processed. -/
theorem processLoop_all_insert (ora : Oracle) (u : Int) (i : String) (events : List Event)
    (s : Store) (p d : Nat) (errs : List String)
    (hins : ∀ e ∈ events, ora.insertEventOk e = true)
    (hfresh : ∀ e ∈ events, ∀ dd, jsStrOrNull e.documentId = some dd →
      hasDupList s.events i dd = false)
    (hpair : List.Pairwise (fun e1 e2 => ∀ dd, jsStrOrNull e1.documentId = some dd →
      jsStrOrNull e2.documentId ≠ some dd) events) :
    (processLoop ora u i events s p d errs).1.events =
        s.events ++ eventRowsFrom s.nextEventId u i events ∧
    (processLoop ora u i events s p d errs).2 = (p + events.length, d, errs) := by
  induction events generalizing s p with
  | nil => simp [processLoop, eventRowsFrom]
  | cons e rest ih =>
    have hdup : (match jsStrOrNull e.documentId with
        | some dd => hasDup s i dd
        | none => false) = false := by
      cases hdoc : jsStrOrNull e.documentId with
      | none => simp
      | some dd =>
        simpa [hasDup_eq_hasDupList] using hfresh e (by simp) dd hdoc
    simp only [processLoop]
    rw [if_neg (by simp [hdup]), if_pos (hins e (by simp))]
    have hfresh' : ∀ x ∈ rest, ∀ dd, jsStrOrNull x.documentId = some dd →
        hasDupList (insertEvent s u i e).events i dd = false := by
      intro x hx dd hdd
      have hx1 : hasDupList s.events i dd = false :=
        hfresh x (by simp [hx]) dd hdd
      have hne : jsStrOrNull e.documentId ≠ some dd := by
        intro hcontra
        exact (List.pairwise_cons.mp hpair).1 x hx dd hcontra hdd
      have hx2 : hasDupList [eventRowOf s.nextEventId u i e] i dd = false := by
        simp only [hasDupList, List.any_cons, List.any_nil, Bool.or_false]
        have : (eventRowOf s.nextEventId u i e).documentId = jsStrOrNull e.documentId := rfl
        simp [this, hne]
      simp [insertEvent, hasDupList_append, hx1, hx2]
    have ihr := ih (insertEvent s u i e) (p + 1)
      (fun x hx => hins x (by simp [hx])) hfresh'
      (List.Pairwise.sublist (List.sublist_cons_self e rest) hpair)
    refine ⟨?_, ?_⟩
    · rw [ihr.1]
      simp [insertEvent, eventRowsFrom, List.append_assoc]
    · rw [ihr.2]
      simp only [List.length_cons]
      have harith : p + 1 + rest.length = p + (rest.length + 1) := by omega
      rw [harith]

/-- When every event of the batch carries a truthy `documentId` that is
already present in the store, the loop touches nothing and counts the whole
batch as duplicates. -/
theorem processLoop_all_dup (ora : Oracle) (u : Int) (i : String) (events : List Event)
    (s : Store) (p d : Nat) (errs : List String)
    (hdup : ∀ e ∈ events, ∃ dd, jsStrOrNull e.documentId = some dd ∧
      hasDupList s.events i dd = true) :
    processLoop ora u i events s p d errs = (s, p, d + events.length, errs) := by
  induction events generalizing d with
  | nil => simp [processLoop]
  | cons e rest ih =>
    obtain ⟨dd, hdd, hin⟩ := hdup e (by simp)
    have hcond : (match jsStrOrNull e.documentId with
        | some x => hasDup s i x
        | none => false) = true := by
      rw [hdd]
      simpa [hasDup_eq_hasDupList] using hin
    simp only [processLoop]
    rw [if_pos hcond]
    rw [ih (d + 1) (fun x hx => hdup x (by simp [hx]))]
    simp only [List.length_cons]
    have harith : d + 1 + rest.length = d + (rest.length + 1) := by omega
    rw [harith]

/-- If some event of the batch has no truthy `documentId` and its insert
fails, the error list at the end of the loop is longer than at the start. -/
theorem processLoop_error_recorded (ora : Oracle) (u : Int) (i : String)
    (events : List Event) (s : Store) (p d : Nat) (errs : List String)
    (hfail : ∃ e ∈ events, jsStrOrNull e.documentId = none ∧ ora.insertEventOk e = false) :
    errs.length < (processLoop ora u i events s p d errs).2.2.2.length := by
  have mono : ∀ (evs : List Event) (s' : Store) (p' d' : Nat) (errs' : List String),
      errs'.length ≤ (processLoop ora u i evs s' p' d' errs').2.2.2.length := by
    intro evs
    induction evs with
    | nil => intro s' p' d' errs'; simp [processLoop]
    | cons e rest ih =>
      intro s' p' d' errs'
      simp only [processLoop]
      by_cases hc : (match jsStrOrNull e.documentId with
          | some dd => hasDup s' i dd
          | none => false) = true
      · rw [if_pos hc]; exact ih s' p' (d' + 1) errs'
      · rw [if_neg hc]
        by_cases hi : ora.insertEventOk e = true
        · rw [if_pos hi]; exact ih _ (p' + 1) d' errs'
        · rw [if_neg hi]
          calc errs'.length ≤ (errs' ++ ["insert failed"]).length := by simp
            _ ≤ _ := ih s' p' d' (errs' ++ ["insert failed"])
  induction events generalizing s p d errs with
  | nil => simp at hfail
  | cons e rest ih =>
    rcases hfail with ⟨x, hx, hxdoc, hxfail⟩
    rcases List.mem_cons.mp hx with hxe | hxrest
    · subst hxe
      simp only [processLoop, hxdoc, hxfail]
      rw [if_neg (by simp), if_neg (by simp)]
      calc errs.length < (errs ++ ["insert failed"]).length := by simp
        _ ≤ _ := mono rest s p d (errs ++ ["insert failed"])
    · simp only [processLoop]
      by_cases hc : (match jsStrOrNull e.documentId with
          | some dd => hasDup s i dd
          | none => false) = true
      · rw [if_pos hc]; exact ih s p (d + 1) errs ⟨x, hxrest, hxdoc, hxfail⟩
      · rw [if_neg hc]
        by_cases hi : ora.insertEventOk e = true
        · rw [if_pos hi]; exact ih _ (p + 1) d errs ⟨x, hxrest, hxdoc, hxfail⟩
        · rw [if_neg hi]
          calc errs.length < (errs ++ ["insert failed"]).length := by simp
            _ ≤ _ := le_of_lt (ih s p d (errs ++ ["insert failed"]) ⟨x, hxrest, hxdoc, hxfail⟩)

/-- Field-wise characterization of `handleRestorations`: it appends exactly
the rows of `restorationRowsFrom`, returns the number of successful inserts,
and touches no other table. -/
theorem handleRestorations_spec (ora : Oracle) (u : Int) (i : String)
    (rs : List Restoration) (s : Store) :
    (handleRestorations ora u i rs s).1.restorations =
        s.restorations ++ restorationRowsFrom ora u i s.nextRestorationId rs ∧
    (handleRestorations ora u i rs s).2 =
        (rs.filter (fun r => ora.insertRestorationOk r)).length ∧
    (handleRestorations ora u i rs s).1.markers = s.markers ∧
    (handleRestorations ora u i rs s).1.events = s.events ∧
    (handleRestorations ora u i rs s).1.sessions = s.sessions ∧
    (handleRestorations ora u i rs s).1.sessionWindows = s.sessionWindows ∧
    (handleRestorations ora u i rs s).1.sessionTabs = s.sessionTabs := by
  induction rs generalizing s with
  | nil => simp [handleRestorations, restorationRowsFrom]
  | cons r rest ih =>
    by_cases hok : ora.insertRestorationOk r = true
    · have key : handleRestorations ora u i (r :: rest) s =
          ((handleRestorations ora u i rest { s with
              restorations := s.restorations ++ [restorationRowOf s.nextRestorationId u i r],
              nextRestorationId := s.nextRestorationId + 1 }).1,
           (handleRestorations ora u i rest { s with
              restorations := s.restorations ++ [restorationRowOf s.nextRestorationId u i r],
              nextRestorationId := s.nextRestorationId + 1 }).2 + 1) := by
        simp only [handleRestorations]
        rw [if_pos hok]
      rw [key]
      have h := ih { s with
        restorations := s.restorations ++ [restorationRowOf s.nextRestorationId u i r],
        nextRestorationId := s.nextRestorationId + 1 }
      dsimp only at h ⊢
      refine ⟨?_, ?_, h.2.2.1, h.2.2.2.1, h.2.2.2.2.1, h.2.2.2.2.2.1, h.2.2.2.2.2.2⟩
      · rw [h.1]
        simp [restorationRowsFrom, hok, List.append_assoc]
      · rw [h.2.1]
        simp [hok]
    · have key : handleRestorations ora u i (r :: rest) s =
          handleRestorations ora u i rest s := by
        simp only [handleRestorations]
        rw [if_neg hok]
      rw [key]
      have h := ih s
      refine ⟨?_, ?_, h.2.2.1, h.2.2.2.1, h.2.2.2.2.1, h.2.2.2.2.2.1, h.2.2.2.2.2.2⟩
      · rw [h.1]
        simp [restorationRowsFrom, hok]
      · rw [h.2.1]
        simp [hok]

/-- The marker `UPDATE` leaves every non-matching row alone and every other
table untouched; a matching row gets exactly the new timestamp. -/
theorem updateMarker_spec (s : Store) (u : Int) (i : String) (ts : Int) :
    (updateMarker s u i ts).events = s.events ∧
    (updateMarker s u i ts).sessions = s.sessions ∧
    (updateMarker s u i ts).restorations = s.restorations ∧
    (∀ m ∈ (updateMarker s u i ts).markers,
      m.userId = u → m.instanceId = i → m.lastEventTimestamp = ts) := by
  refine ⟨rfl, rfl, rfl, ?_⟩
  intro m hm hu hi
  simp only [updateMarker, List.mem_map] at hm
  obtain ⟨m0, _, hm0⟩ := hm
  by_cases hc : (m0.userId == u && m0.instanceId == i) = true
  · rw [if_pos hc] at hm0
    rw [← hm0]
  · rw [if_neg hc] at hm0
    subst hm0
    simp only [Bool.and_eq_true, beq_iff_eq] at hc
    exact absurd ⟨hu, hi⟩ hc

/-- If no marker row matches, the marker `UPDATE` is a no-op on the table. -/
theorem updateMarker_no_match (s : Store) (u : Int) (i : String) (ts : Int)
    (h : findMarker s u i = none) :
    (updateMarker s u i ts).markers = s.markers := by
  have hall := List.find?_eq_none.mp h
  simp only [updateMarker]
  calc s.markers.map (fun m =>
        if m.userId == u && m.instanceId == i then
          { m with lastEventTimestamp := ts } else m)
      = s.markers.map id := by
        apply List.map_congr_left
        intro m hm
        rw [if_neg (by simpa using hall m hm)]
        rfl
    _ = s.markers := List.map_id s.markers

theorem find?_marker_map (l : List MarkerRow) (u : Int) (i : String) (ts : Int) :
    (l.map (fun m => if m.userId == u && m.instanceId == i then
        { m with lastEventTimestamp := ts } else m)).find?
        (fun m => m.userId == u && m.instanceId == i) =
      (l.find? (fun m => m.userId == u && m.instanceId == i)).map
        (fun m => { m with lastEventTimestamp := ts }) := by
  induction l with
  | nil => rfl
  | cons m rest ih =>
    simp only [List.map_cons, List.find?_cons]
    by_cases hc : (m.userId == u && m.instanceId == i) = true
    · rw [if_pos hc]
      dsimp only
      rw [hc]
      rfl
    · rw [if_neg hc]
      have hf : (m.userId == u && m.instanceId == i) = false := by simpa using hc
      rw [hf]
      exact ih

/-- `updateMarker` rewrites exactly the stored cursor of the matching row. -/
theorem markerValue_updateMarker (s : Store) (u : Int) (i : String) (ts : Int)
    (h : (findMarker s u i).isSome = true) :
    markerValue (updateMarker s u i ts) u i = some ts := by
  obtain ⟨m0, hm0⟩ := Option.isSome_iff_exists.mp h
  simp only [markerValue, findMarker, updateMarker] at hm0 ⊢
  rw [find?_marker_map, hm0]
  rfl

/-- Unfolding of `processEvents` on the committed path: with a non-empty
batch and a marker `UPDATE` that does not fail, the call returns the tallies
of the loop and the store after the unconditional marker update. -/
theorem processEvents_ok_eq (ora : Oracle) (i : String) (u : Int) (events : List Event)
    (rs : List Restoration) (s : Store)
    (hok : ora.updateMarkerOk = true) (hne : events ≠ []) :
    processEvents ora i u events rs s =
      .ok (mkSyncResult i events.length
            (processLoop ora u i events s 0 0 []).2.1
            (processLoop ora u i events s 0 0 []).2.2.1
            (if rs.length > 0 then
              handleRestorations ora u i rs (processLoop ora u i events s 0 0 []).1
             else ((processLoop ora u i events s 0 0 []).1, 0)).2
            (processLoop ora u i events s 0 0 []).2.2.2)
        (updateMarker
          (if rs.length > 0 then
            handleRestorations ora u i rs (processLoop ora u i events s 0 0 []).1
           else ((processLoop ora u i events s 0 0 []).1, 0)).1
          u i (batchMaxTimestamp events)) := by
  simp only [processEvents]
  rw [if_pos (List.length_pos_iff_ne_nil.mpr hne), if_pos hok]

/-- The rolled-back path of `processEvents`: a failing marker `UPDATE`
(reached whenever the batch is non-empty) rethrows after `ROLLBACK`. -/
theorem processEvents_thrown_eq (ora : Oracle) (i : String) (u : Int)
    (events : List Event) (rs : List Restoration) (s : Store)
    (hok : ora.updateMarkerOk = false) (hne : events ≠ []) :
    processEvents ora i u events rs s = .thrown s := by
  simp only [processEvents]
  rw [if_pos (List.length_pos_iff_ne_nil.mpr hne), if_neg (by simp [hok])]

/-- The store the loop hands to the marker update keeps the markers table
of the initial store, whatever the restoration metadata does. -/
theorem restStore_markers (ora : Oracle) (i : String) (u : Int) (events : List Event)
    (rs : List Restoration) (s : Store) :
    (if rs.length > 0 then
        handleRestorations ora u i rs (processLoop ora u i events s 0 0 []).1
      else ((processLoop ora u i events s 0 0 []).1, 0)).1.markers = s.markers := by
  by_cases hrs : rs.length > 0
  · rw [if_pos hrs]
    rw [(handleRestorations_spec ora u i rs (processLoop ora u i events s 0 0 []).1).2.2.1]
    exact (processLoop_frame ora u i events s 0 0 []).1
  · rw [if_neg hrs]
    exact (processLoop_frame ora u i events s 0 0 []).1

/-- Likewise for the events table: restorations never touch it. -/
theorem restStore_events (ora : Oracle) (i : String) (u : Int) (events : List Event)
    (rs : List Restoration) (s : Store) :
    (if rs.length > 0 then
        handleRestorations ora u i rs (processLoop ora u i events s 0 0 []).1
      else ((processLoop ora u i events s 0 0 []).1, 0)).1.events =
      (processLoop ora u i events s 0 0 []).1.events := by
  by_cases hrs : rs.length > 0
  · rw [if_pos hrs]
    exact (handleRestorations_spec ora u i rs (processLoop ora u i events s 0 0 []).1).2.2.2.1
  · rw [if_neg hrs]

/-- C1, counterexample: the stored `lastEventTimestamp` CAN decrease across
successful `processEvents` calls. After ingesting a batch with timestamp
1000 the marker holds 1000; a second successful call whose batch has
timestamp 500 overwrites the marker with 500 < 1000, because the `UPDATE`
is unconditional rather than `max(current, new)`. -/
theorem c1_counterexample :
    markerValue c1s1 1 "I1" = some 1000 ∧
    processEvents noFailures "I1" 1 [c1e2] [] c1s1 = SyncOutcome.ok c1r2 c1s2 ∧
    markerValue c1s2 1 "I1" = some 500 := by
  decide

/-- C1, amended: after every successful `processEvents` call with a
non-empty batch on a (user, instance) that has a marker row, the stored
`lastEventTimestamp` equals the maximum timestamp of that batch —
unconditionally, so it is monotone only when batches arrive with
non-decreasing maxima. -/
theorem c1_marker_is_batch_max (ora : Oracle) (i : String) (u : Int)
    (events : List Event) (rs : List Restoration) (s : Store) (r : SyncResult) (s' : Store)
    (h : processEvents ora i u events rs s = .ok r s') (hne : events ≠ [])
    (hm : (findMarker s u i).isSome = true) :
    markerValue s' u i = some (batchMaxTimestamp events) := by
  have hok : ora.updateMarkerOk = true := by
    by_contra hbad
    rw [processEvents_thrown_eq ora i u events rs s (Bool.eq_false_iff.mpr hbad) hne] at h
    exact SyncOutcome.noConfusion h
  rw [processEvents_ok_eq ora i u events rs s hok hne] at h
  have hs' : s' = updateMarker
      (if rs.length > 0 then
        handleRestorations ora u i rs (processLoop ora u i events s 0 0 []).1
       else ((processLoop ora u i events s 0 0 []).1, 0)).1
      u i (batchMaxTimestamp events) := by
    exact ((SyncOutcome.ok.injEq _ _ _ _).mp h.symm).2
  subst hs'
  have hmarkers := restStore_markers ora i u events rs s
  have hsome : (findMarker
      (if rs.length > 0 then
        handleRestorations ora u i rs (processLoop ora u i events s 0 0 []).1
       else ((processLoop ora u i events s 0 0 []).1, 0)).1 u i).isSome = true := by
    simp only [findMarker, hmarkers]
    exact hm
  exact markerValue_updateMarker _ u i (batchMaxTimestamp events) hsome

/-- C1, witness for the amended theorem at a concrete run. -/
theorem c1_marker_is_batch_max_witness :
    markerValue c1s1 1 "I1" = some (batchMaxTimestamp [c1e1]) :=
  c1_marker_is_batch_max noFailures "I1" 1 [c1e1] [] c1s0 c1r2 c1s1
    (by decide) (by decide) (by decide)

/-- C3: if a hard (non-per-event) error is thrown before the commit — in
this embedding, the transaction-fatal failure of the marker `UPDATE`, which
is the one statement of the batch path executed outside a per-item `try` —
the whole transaction is rolled back: the call rethrows and the store is
exactly its pre-call state, so none of the batch's events is visible and
the (user, instance) marker is unchanged. -/
theorem c3_hard_error_rolls_back (ora : Oracle) (i : String) (u : Int)
    (events : List Event) (rs : List Restoration) (s : Store)
    (hfail : ora.updateMarkerOk = false) (hne : events ≠ []) :
    processEvents ora i u events rs s = .thrown s :=
  processEvents_thrown_eq ora i u events rs s hfail hne

/-- C3, witness: a concrete hard failure leaves the concrete store intact. -/
theorem c3_hard_error_rolls_back_witness :
    processEvents c3ora "I3" 7 [c3e] [] c3s = SyncOutcome.thrown c3s :=
  c3_hard_error_rolls_back c3ora "I3" 7 [c3e] [] c3s (by decide) (by decide)

/-- C9: `processEvents` never creates a marker row. For a (user, instance)
with no marker row, a successful call with a non-empty batch commits the
inserted events (the event table grows by exactly the processed count) while
the `sync_markers` table is left unchanged: the marker-advance `UPDATE`
matches zero rows. -/
theorem c9_no_marker_created (ora : Oracle) (i : String) (u : Int)
    (events : List Event) (rs : List Restoration) (s : Store)
    (hok : ora.updateMarkerOk = true) (hne : events ≠ [])
    (hnm : findMarker s u i = none) :
    ∃ r s', processEvents ora i u events rs s = .ok r s' ∧
      s'.markers = s.markers ∧
      s'.events.length = s.events.length + r.eventsProcessed := by
  refine ⟨_, _, processEvents_ok_eq ora i u events rs s hok hne, ?_, ?_⟩
  · have hm2 := restStore_markers ora i u events rs s
    have hnone : findMarker
        (if rs.length > 0 then
          handleRestorations ora u i rs (processLoop ora u i events s 0 0 []).1
         else ((processLoop ora u i events s 0 0 []).1, 0)).1 u i = none := by
      simp only [findMarker, hm2]
      exact hnm
    rw [updateMarker_no_match _ u i _ hnone, hm2]
  · show (updateMarker _ u i _).events.length = _
    have hev : (updateMarker
        (if rs.length > 0 then
          handleRestorations ora u i rs (processLoop ora u i events s 0 0 []).1
         else ((processLoop ora u i events s 0 0 []).1, 0)).1
        u i (batchMaxTimestamp events)).events =
        (processLoop ora u i events s 0 0 []).1.events := by
      rw [(updateMarker_spec _ u i _).1]
      exact restStore_events ora i u events rs s
    rw [hev]
    have hfr := (processLoop_frame ora u i events s 0 0 []).2.2.2.2.2.1
    show _ = s.events.length + (processLoop ora u i events s 0 0 []).2.1
    omega

/-- C9, witness: on an empty store (no marker row) a concrete call commits
one event and creates no marker. -/
theorem c9_no_marker_created_witness :
    ∃ r s', processEvents noFailures "I9" 9 [c9e] [] Store.empty = .ok r s' ∧
      s'.markers = Store.empty.markers ∧
      s'.events.length = Store.empty.events.length + r.eventsProcessed :=
  c9_no_marker_created noFailures "I9" 9 [c9e] [] Store.empty (by decide) (by decide) (by decide)

/-- C10: events without a `documentId` bypass deduplication entirely. For
any store state (in particular, for a repeated submission of the very same
batch), a batch of such events is inserted unconditionally: every event is
counted as processed, `duplicateCount` stays 0, and the event table grows by
one fresh row per event on every call. -/
theorem c10_no_documentId_bypasses_dedup (i : String) (u : Int)
    (events : List Event) (s : Store)
    (hdoc : ∀ e ∈ events, e.documentId = none) :
    ∃ r s', processEvents noFailures i u events [] s = .ok r s' ∧
      r.eventsProcessed = events.length ∧
      r.duplicateCount = 0 ∧
      s'.events.length = s.events.length + events.length := by
  have hloop := processLoop_all_insert noFailures u i events s 0 0 []
    (fun e _ => rfl)
    (fun e he dd hdd => by
      rw [hdoc e he] at hdd
      exact absurd hdd (by simp [jsStrOrNull]))
    (List.pairwise_of_forall_mem_list (fun a ha b _ => by
      intro dd hdd
      rw [hdoc a ha] at hdd
      exact absurd hdd (by simp [jsStrOrNull])))
  by_cases hemp : events = []
  · subst hemp
    exact ⟨_, _, rfl, rfl, rfl, by simp [processEvents, processLoop]⟩
  · refine ⟨_, _, processEvents_ok_eq noFailures i u events [] s rfl hemp, ?_, ?_, ?_⟩
    · show (processLoop noFailures u i events s 0 0 []).2.1 = events.length
      rw [hloop.2]
      simp
    · show (processLoop noFailures u i events s 0 0 []).2.2.1 = 0
      rw [hloop.2]
    · show (updateMarker _ u i _).events.length = _
      rw [(updateMarker_spec _ u i _).1]
      have hev := restStore_events noFailures i u events [] s
      rw [hev, hloop.1]
      simp [eventRowsFrom_length]

/-- C10, witness: re-submitting a documentId-less event to the store that
already holds it still counts it as processed and inserts a second row. -/
theorem c10_no_documentId_bypasses_dedup_witness :
    ∃ r s', processEvents noFailures "IA" 3 [c10e] [] c10s1 = .ok r s' ∧
      r.eventsProcessed = [c10e].length ∧
      r.duplicateCount = 0 ∧
      s'.events.length = c10s1.events.length + [c10e].length :=
  c10_no_documentId_bypasses_dedup "IA" 3 [c10e] c10s1 (by decide)

theorem hasDupList_eventRowsFrom_of_mem (n : Nat) (u : Int) (i : String)
    (events : List Event) (e : Event) (dd : String)
    (he : e ∈ events) (hdd : jsStrOrNull e.documentId = some dd) :
    hasDupList (eventRowsFrom n u i events) i dd = true := by
  induction events generalizing n with
  | nil => simp at he
  | cons a rest ih =>
    simp only [eventRowsFrom, hasDupList, List.any_cons, Bool.or_eq_true]
    rcases List.mem_cons.mp he with hea | herest
    · subst hea
      left
      have h1 : (eventRowOf n u i e).instanceId = i := rfl
      have h2 : (eventRowOf n u i e).documentId = jsStrOrNull e.documentId := rfl
      simp [h1, h2, hdd]
    · right
      have := ih (n + 1) herest
      simpa [hasDupList] using this

/-- A single committed ingestion of a batch of pairwise-distinct, fresh,
truthy-documentId events: everything is processed, nothing is a duplicate,
and the event table gains exactly the corresponding rows. -/
theorem processEvents_all_fresh (i : String) (u : Int) (events : List Event) (s : Store)
    (hne : events ≠ [])
    (hfresh : ∀ e ∈ events, ∀ dd, jsStrOrNull e.documentId = some dd →
      hasDupList s.events i dd = false)
    (hpair : List.Pairwise (fun e1 e2 => ∀ dd, jsStrOrNull e1.documentId = some dd →
      jsStrOrNull e2.documentId ≠ some dd) events) :
    ∃ r1 s1, processEvents noFailures i u events [] s = .ok r1 s1 ∧
      r1.eventsProcessed = events.length ∧ r1.duplicateCount = 0 ∧
      s1.events = s.events ++ eventRowsFrom s.nextEventId u i events := by
  have hloop := processLoop_all_insert noFailures u i events s 0 0 []
    (fun e _ => rfl) hfresh hpair
  refine ⟨_, _, processEvents_ok_eq noFailures i u events [] s rfl hne, ?_, ?_, ?_⟩
  · show (processLoop noFailures u i events s 0 0 []).2.1 = events.length
    rw [hloop.2]
    simp
  · show (processLoop noFailures u i events s 0 0 []).2.2.1 = 0
    rw [hloop.2]
  · show (updateMarker _ u i _).events = _
    rw [(updateMarker_spec _ u i _).1, restStore_events noFailures i u events [] s, hloop.1]

/-- A single committed ingestion of a batch whose every event's truthy
`documentId` is already stored: nothing is processed, everything is counted
as a duplicate, and the event table is unchanged. -/
theorem processEvents_all_dup_call (i : String) (u : Int) (events : List Event) (s : Store)
    (hne : events ≠ [])
    (hdup : ∀ e ∈ events, ∃ dd, jsStrOrNull e.documentId = some dd ∧
      hasDupList s.events i dd = true) :
    ∃ r2 s2, processEvents noFailures i u events [] s = .ok r2 s2 ∧
      r2.eventsProcessed = 0 ∧ r2.duplicateCount = events.length ∧
      s2.events = s.events := by
  have hloop := processLoop_all_dup noFailures u i events s 0 0 [] hdup
  refine ⟨_, _, processEvents_ok_eq noFailures i u events [] s rfl hne, ?_, ?_, ?_⟩
  · show (processLoop noFailures u i events s 0 0 []).2.1 = 0
    rw [hloop]
  · show (processLoop noFailures u i events s 0 0 []).2.2.1 = events.length
    rw [hloop]
    simp
  · show (updateMarker _ u i _).events = _
    rw [(updateMarker_spec _ u i _).1, restStore_events noFailures i u events [] s, hloop]

/-- C2, counterexample to the claim as stated: a batch of N = 2 events,
each carrying the documentId "c2d" which is not yet stored for the
instance, satisfies the claim's precondition, yet the FIRST call already
returns `eventsProcessed = 1, duplicateCount = 1` instead of `(2, 0)`:
inside one call the second occurrence sees the row just inserted for the
first one, because the duplicate check runs inside the same transaction. -/
theorem c2_counterexample :
    hasDup Store.empty "I2" "c2d" = false ∧
    (match processEvents noFailures "I2" 1 [c2ei, c2ei] [] Store.empty with
      | .ok r _ => (r.eventsProcessed, r.duplicateCount)
      | .thrown _ => (99, 99)) = (1, 1) := by
  decide

/-- C2, amended: idempotent ingestion holds for batches whose events carry
pairwise-distinct, non-empty `documentId`s not yet stored for the instance
(an empty-string id is falsy in JS and bypasses the duplicate check, and an
id repeated inside one batch is deduplicated against its first occurrence
already by the first call): the first call processes all N events with no
duplicates, the second call processes none and counts N duplicates, and the
second call inserts no new event row. -/
theorem c2_idempotent_ingestion (i : String) (u : Int) (events : List Event) (s : Store)
    (hne : events ≠ [])
    (hdoc : ∀ e ∈ events, e.documentId ≠ none ∧ e.documentId ≠ some "")
    (hfresh : ∀ e ∈ events, ∀ dd, e.documentId = some dd → hasDup s i dd = false)
    (hpair : List.Pairwise (fun e1 e2 => e1.documentId ≠ e2.documentId) events) :
    ∃ r1 s1 r2 s2,
      processEvents noFailures i u events [] s = .ok r1 s1 ∧
      r1.eventsProcessed = events.length ∧ r1.duplicateCount = 0 ∧
      processEvents noFailures i u events [] s1 = .ok r2 s2 ∧
      r2.eventsProcessed = 0 ∧ r2.duplicateCount = events.length ∧
      s2.events = s1.events := by
  have hdoc' : ∀ e ∈ events, ∃ dd, dd ≠ "" ∧ e.documentId = some dd := by
    intro e he
    obtain ⟨h1, h2⟩ := hdoc e he
    cases hd : e.documentId with
    | none => exact absurd hd h1
    | some d =>
      refine ⟨d, ?_, rfl⟩
      intro hde
      apply h2
      rw [hd, hde]
  have hjsEq : ∀ e ∈ events, jsStrOrNull e.documentId = e.documentId := by
    intro e he
    obtain ⟨d0, hd0ne, hd0⟩ := hdoc' e he
    rw [hd0]
    simp only [jsStrOrNull]
    rw [if_neg (by simpa using hd0ne)]
  obtain ⟨r1, s1, hcall1, hp1, hd1, hev1⟩ :=
    processEvents_all_fresh i u events s hne
      (fun e he dd hdd => by
        rw [← hasDup_eq_hasDupList]
        rw [hjsEq e he] at hdd
        exact hfresh e he dd hdd)
      (by
        refine List.Pairwise.imp_of_mem ?_ hpair
        intro e1 e2 h1 h2 hne12 dd hdd1 hdd2
        rw [hjsEq e1 h1] at hdd1
        rw [hjsEq e2 h2] at hdd2
        exact hne12 (hdd1.trans hdd2.symm))
  obtain ⟨r2, s2, hcall2, hp2, hd2, hev2⟩ :=
    processEvents_all_dup_call i u events s1 hne
      (fun e he => by
        obtain ⟨d0, hd0ne, hd0⟩ := hdoc' e he
        have hjs0 : jsStrOrNull e.documentId = some d0 := by rw [hjsEq e he, hd0]
        refine ⟨d0, hjs0, ?_⟩
        rw [hev1, hasDupList_append,
          hasDupList_eventRowsFrom_of_mem s.nextEventId u i events e d0 he hjs0]
        simp)
  exact ⟨r1, s1, r2, s2, hcall1, hp1, hd1, hcall2, hp2, hd2, hev2⟩

/-- C2, witness for the amended theorem at a concrete two-event batch. -/
theorem c2_idempotent_ingestion_witness :
    ∃ r1 s1 r2 s2,
      processEvents noFailures "I2" 1 [c2wa, c2wb] [] Store.empty = .ok r1 s1 ∧
      r1.eventsProcessed = [c2wa, c2wb].length ∧ r1.duplicateCount = 0 ∧
      processEvents noFailures "I2" 1 [c2wa, c2wb] [] s1 = .ok r2 s2 ∧
      r2.eventsProcessed = 0 ∧ r2.duplicateCount = [c2wa, c2wb].length ∧
      s2.events = s1.events :=
  c2_idempotent_ingestion "I2" 1 [c2wa, c2wb] Store.empty (by decide)
    (by decide)
    (by decide)
    (by decide)

/-- C4, counterexample to the claim as stated: with a fresh marker at 0, a
1-event batch whose single insert soft-fails returns normally with
`eventsProcessed = 0` and an error message, inserts nothing — and yet the
marker is advanced to the failed event's timestamp 777, because
`Math.max(...events.map(e => e.timestamp))` ranges over the whole batch,
failed events included. The claim's clause "the marker advance does not
move past it as if it had been ingested" is false on the code. -/
theorem c4_counterexample :
    markerValue c4s 2 "I4" = some 0 ∧
    (match processEvents c4ora "I4" 2 [c4e] [] c4s with
      | .ok r s' =>
        (r.eventsProcessed, r.duplicateCount, r.message, markerValue s' 2 "I4",
          s'.events.length)
      | .thrown _ => (99, 99, "", none, 99)) =
      (0, 0, "Processed with 1 errors", some 777, 0) := by
  decide

/-- C4, amended: when some event of a non-empty batch soft-fails its insert
(and the marker `UPDATE` itself does not fail), the call still returns
normally; soft-failed events are neither counted as processed nor inserted
(the event table grows by exactly `eventsProcessed` rows) while every event
is accounted for as processed, duplicate or error; the returned message
carries the error count; BUT the marker is still advanced to the maximum
timestamp over the whole batch, failed events included. -/
theorem c4_soft_error_behavior (ora : Oracle) (i : String) (u : Int)
    (events : List Event) (s : Store)
    (hok : ora.updateMarkerOk = true) (hne : events ≠ [])
    (hfail : ∃ e ∈ events, jsStrOrNull e.documentId = none ∧ ora.insertEventOk e = false)
    (hm : (findMarker s u i).isSome = true) :
    ∃ r s', processEvents ora i u events [] s = .ok r s' ∧
      s'.events.length = s.events.length + r.eventsProcessed ∧
      r.eventsProcessed + r.duplicateCount < events.length ∧
      r.message = "Processed with " ++
        toString (events.length - (r.eventsProcessed + r.duplicateCount)) ++ " errors" ∧
      markerValue s' u i = some (batchMaxTimestamp events) := by
  have herr : 0 < (processLoop ora u i events s 0 0 []).2.2.2.length := by
    simpa using processLoop_error_recorded ora u i events s 0 0 [] hfail
  have hacc := (processLoop_frame ora u i events s 0 0 []).2.2.2.2.2.2
  have hlen := (processLoop_frame ora u i events s 0 0 []).2.2.2.2.2.1
  refine ⟨_, _, processEvents_ok_eq ora i u events [] s hok hne, ?_, ?_, ?_, ?_⟩
  · show (updateMarker _ u i _).events.length =
      s.events.length + (processLoop ora u i events s 0 0 []).2.1
    rw [(updateMarker_spec _ u i _).1, restStore_events ora i u events [] s]
    omega
  · show (processLoop ora u i events s 0 0 []).2.1 +
      (processLoop ora u i events s 0 0 []).2.2.1 < events.length
    simp only [List.length_nil] at hacc
    omega
  · show (mkSyncResult i events.length _ _ _ _).message = _
    have hmsg : (mkSyncResult i events.length
        (processLoop ora u i events s 0 0 []).2.1
        (processLoop ora u i events s 0 0 []).2.2.1
        (if ([] : List Restoration).length > 0 then
          handleRestorations ora u i [] (processLoop ora u i events s 0 0 []).1
         else ((processLoop ora u i events s 0 0 []).1, 0)).2
        (processLoop ora u i events s 0 0 []).2.2.2).message =
        "Processed with " ++
          toString (processLoop ora u i events s 0 0 []).2.2.2.length ++ " errors" := by
      simp only [mkSyncResult]
      rw [if_pos herr]
    rw [hmsg]
    have hcount : (processLoop ora u i events s 0 0 []).2.2.2.length =
        events.length - ((processLoop ora u i events s 0 0 []).2.1 +
          (processLoop ora u i events s 0 0 []).2.2.1) := by
      simp only [List.length_nil] at hacc
      omega
    rw [hcount]
    rfl
  · have hmarkers := restStore_markers ora i u events [] s
    have hsome : (findMarker
        (if ([] : List Restoration).length > 0 then
          handleRestorations ora u i [] (processLoop ora u i events s 0 0 []).1
         else ((processLoop ora u i events s 0 0 []).1, 0)).1 u i).isSome = true := by
      simp only [findMarker, hmarkers]
      exact hm
    exact markerValue_updateMarker _ u i (batchMaxTimestamp events) hsome

/-- C4, witness for the amended theorem at the concrete soft-failing run. -/
theorem c4_soft_error_behavior_witness :
    ∃ r s', processEvents c4ora "I4" 2 [c4e] [] c4s = .ok r s' ∧
      s'.events.length = c4s.events.length + r.eventsProcessed ∧
      r.eventsProcessed + r.duplicateCount < [c4e].length ∧
      r.message = "Processed with " ++
        toString ([c4e].length - (r.eventsProcessed + r.duplicateCount)) ++ " errors" ∧
      markerValue s' 2 "I4" = some (batchMaxTimestamp [c4e]) :=
  c4_soft_error_behavior c4ora "I4" 2 [c4e] c4s (by decide) (by decide)
    (by decide) (by decide)

/-- C5: the `getMarker` contract. On a fresh (user, instance) pair the call
inserts exactly one marker row with cursor 0 and returns
`firstSync = true`, `lastEventTimestamp = 0` and the count of all existing
events of the pair; when a marker row exists (as after that first call) it
returns `firstSync = false` with the count of events strictly newer than
the stored cursor, and returns the store untouched — it never mutates an
existing marker row. -/
theorem c5_getMarker_contract (s : Store) (i : String) (u : Int) :
    (findMarker s u i = none →
      getMarker s i u =
        (⟨i, 0, none, true, countAllEvents s u i⟩,
         { s with markers := s.markers ++ [⟨u, i, 0, none⟩] })) ∧
    (∀ m, findMarker s u i = some m →
      getMarker s i u =
        (⟨i, m.lastEventTimestamp, jsStrOrNull m.lastSessionId, false,
          countEventsAfter s u i m.lastEventTimestamp⟩, s)) := by
  constructor
  · intro h
    simp only [getMarker, h]
    rfl
  · intro m h
    simp only [getMarker, h]

/-- C5, witness: the two branches of the contract at a concrete pair —
first call creates the cursor-0 marker, second call reads it back without
touching the store. -/
theorem c5_getMarker_contract_witness :
    getMarker Store.empty "I5" 4 =
      (⟨"I5", 0, none, true, countAllEvents Store.empty 4 "I5"⟩,
       { Store.empty with markers := Store.empty.markers ++ [⟨4, "I5", 0, none⟩] }) ∧
    getMarker c5marked "I5" 4 =
      (⟨"I5", 0, jsStrOrNull none, false, countEventsAfter c5marked 4 "I5" 0⟩, c5marked) :=
  ⟨(c5_getMarker_contract Store.empty "I5" 4).1 (by decide),
   (c5_getMarker_contract c5marked "I5" 4).2 ⟨4, "I5", 0, none⟩ (by decide)⟩

theorem restorationRowsFrom_forall2 (ora : Oracle) (u : Int) (i : String) (n : Nat)
    (rs : List Restoration) :
    List.Forall₂ (fun (r : Restoration) (row : RestorationRow) =>
        row.userId = u ∧ row.instanceId = i ∧
        row.originalSessionId = r.originalSessionId ∧
        row.newWindowId = jsIntOrNull r.newWindowId)
      (rs.filter (fun r => ora.insertRestorationOk r))
      (restorationRowsFrom ora u i n rs) := by
  induction rs generalizing n with
  | nil => simp [restorationRowsFrom]
  | cons r rest ih =>
    by_cases hok : ora.insertRestorationOk r = true
    · simp only [restorationRowsFrom, List.filter_cons, hok, if_true]
      exact List.Forall₂.cons ⟨rfl, rfl, rfl, rfl⟩ (ih (n + 1))
    · simp only [restorationRowsFrom, List.filter_cons]
      rw [if_neg hok, if_neg hok]
      exact ih n

/-- C7: the `handleRestorations` contract. The returned count is the number
of records whose insert succeeded; the table gains exactly one row per such
record, in record order and with the record's fields — unconditionally, so
repeated reports for the same `originalSessionId` each produce their own
row (no deduplication); a failing record is skipped without aborting the
call or the records after it. -/
theorem c7_handleRestorations_contract (ora : Oracle) (u : Int) (i : String)
    (rs : List Restoration) (s : Store) :
    (handleRestorations ora u i rs s).2 =
        (rs.filter (fun r => ora.insertRestorationOk r)).length ∧
    (handleRestorations ora u i rs s).1.restorations =
        s.restorations ++ restorationRowsFrom ora u i s.nextRestorationId rs ∧
    List.Forall₂ (fun (r : Restoration) (row : RestorationRow) =>
        row.userId = u ∧ row.instanceId = i ∧
        row.originalSessionId = r.originalSessionId ∧
        row.newWindowId = jsIntOrNull r.newWindowId)
      (rs.filter (fun r => ora.insertRestorationOk r))
      (restorationRowsFrom ora u i s.nextRestorationId rs) :=
  ⟨(handleRestorations_spec ora u i rs s).2.1,
   (handleRestorations_spec ora u i rs s).1,
   restorationRowsFrom_forall2 ora u i s.nextRestorationId rs⟩

theorem list_all_not_filter {α : Type} (l : List α) (q : α → Bool) :
    ((l.filter (fun a => !(q a))).all (fun a => !(q a))) = true := by
  rw [List.all_eq_true]
  intro a ha
  exact (List.mem_filter.mp ha).2

/-- C8: `deleteSession` removes every session row of the (user, sessionId)
pair, and the store-level `ON DELETE CASCADE` chain removes every window row
referencing a removed session and every tab row referencing such a window;
the unrelated tables are untouched. -/
theorem c8_deleteSession_cascades (s : Store) (u : Int) (sid : String) :
    ((deleteSession s u sid).sessions.all
      (fun r => !(r.userId == u && r.sessionId == sid))) = true ∧
    ((deleteSession s u sid).sessionWindows.all
      (fun w => !((s.sessions.filter (fun r => r.userId == u && r.sessionId == sid)).any
          (fun r => r.id == w.sessionId)))) = true ∧
    ((deleteSession s u sid).sessionTabs.all
      (fun t => !((s.sessionWindows.filter
            (fun w => (s.sessions.filter (fun r => r.userId == u && r.sessionId == sid)).any
              (fun r => r.id == w.sessionId))).any
          (fun w => w.id == t.sessionWindowId)))) = true ∧
    (deleteSession s u sid).markers = s.markers ∧
    (deleteSession s u sid).events = s.events ∧
    (deleteSession s u sid).restorations = s.restorations := by
  refine ⟨?_, ?_, ?_, rfl, rfl, rfl⟩
  · exact list_all_not_filter s.sessions (fun r => r.userId == u && r.sessionId == sid)
  · exact list_all_not_filter s.sessionWindows
      (fun w => (s.sessions.filter (fun r => r.userId == u && r.sessionId == sid)).any
        (fun r => r.id == w.sessionId))
  · exact list_all_not_filter s.sessionTabs
      (fun t => (s.sessionWindows.filter
          (fun w => (s.sessions.filter (fun r => r.userId == u && r.sessionId == sid)).any
            (fun r => r.id == w.sessionId))).any
        (fun w => w.id == t.sessionWindowId))

theorem find?_append_of_none {α : Type} (l1 l2 : List α) (p : α → Bool)
    (h : l1.find? p = none) : (l1 ++ l2).find? p = l2.find? p := by
  induction l1 with
  | nil => rfl
  | cons a rest ih =>
    rw [List.find?_cons] at h
    rw [List.cons_append, List.find?_cons]
    cases hpa : p a with
    | true =>
      rw [hpa] at h
      exact Option.noConfusion h
    | false =>
      rw [hpa] at h
      exact ih h

theorem insertTabs_spec (swid : Nat) (ts : List TabInput) (s : Store) :
    (insertTabs swid ts s).sessionTabs = s.sessionTabs ++ tabRowsFrom s.nextTabId swid ts ∧
    (insertTabs swid ts s).nextTabId = s.nextTabId + ts.length ∧
    (insertTabs swid ts s).sessions = s.sessions ∧
    (insertTabs swid ts s).sessionWindows = s.sessionWindows ∧
    (insertTabs swid ts s).nextWindowId = s.nextWindowId ∧
    (insertTabs swid ts s).nextSessionId = s.nextSessionId := by
  induction ts generalizing s with
  | nil => simp [insertTabs, tabRowsFrom]
  | cons t rest ih =>
    simp only [insertTabs]
    have h := ih { s with
      sessionTabs := s.sessionTabs ++ [tabRowOf s.nextTabId swid t],
      nextTabId := s.nextTabId + 1 }
    refine ⟨?_, ?_, h.2.2.1, h.2.2.2.1, h.2.2.2.2.1, h.2.2.2.2.2⟩
    · rw [h.1]
      simp [tabRowsFrom, List.append_assoc]
    · rw [h.2.1]
      simp only [List.length_cons]
      omega

theorem insertWindows_spec (sid : Nat) (ws : List WindowInput) (wo : Int) (s : Store)
    (hOrd : ∀ r ∈ s.sessionWindows, r.sessionId = sid → r.windowOrder < wo) :
    ∃ s2, insertWindows sid ws wo s = some s2 ∧
      s2.sessionWindows = s.sessionWindows ++ windowRowsFrom s.nextWindowId sid wo ws ∧
      s2.sessionTabs = s.sessionTabs ++ sessionTabRowsFrom s.nextTabId s.nextWindowId ws ∧
      s2.sessions = s.sessions ∧
      s2.nextWindowId = s.nextWindowId + ws.length ∧
      s2.nextTabId = s.nextTabId + totalTabCount ws ∧
      s2.nextSessionId = s.nextSessionId := by
  induction ws generalizing wo s with
  | nil =>
    exact ⟨s, rfl, by simp [windowRowsFrom], by simp [sessionTabRowsFrom],
      rfl, by simp, by simp [totalTabCount], rfl⟩
  | cons w rest ih =>
    simp only [insertWindows]
    have hfind : (s.sessionWindows ++ [windowRowOf s.nextWindowId sid wo w]).find?
        (fun r => r.sessionId == sid && r.windowOrder == wo) =
        some (windowRowOf s.nextWindowId sid wo w) := by
      rw [find?_append_of_none _ _ _ (List.find?_eq_none.mpr ?_)]
      · rw [List.find?_cons]
        have hp : ((windowRowOf s.nextWindowId sid wo w).sessionId == sid &&
            (windowRowOf s.nextWindowId sid wo w).windowOrder == wo) = true := by
          have h1 : (windowRowOf s.nextWindowId sid wo w).sessionId = sid := rfl
          have h2 : (windowRowOf s.nextWindowId sid wo w).windowOrder = wo := rfl
          simp [h1, h2]
        rw [hp]
      · intro r hr
        simp only [Bool.and_eq_true, beq_iff_eq, not_and]
        intro hsid hwo
        exact absurd hwo (by
          have := hOrd r hr hsid
          omega)
    rw [hfind]
    have htabs := insertTabs_spec (windowRowOf s.nextWindowId sid wo w).id (w.tabs.getD [])
      { s with sessionWindows := s.sessionWindows ++ [windowRowOf s.nextWindowId sid wo w],
               nextWindowId := s.nextWindowId + 1 }
    obtain ⟨hT1, hT2, hT3, hT4, hT5, hT6⟩ := htabs
    have hOrd2 : ∀ r ∈ (insertTabs (windowRowOf s.nextWindowId sid wo w).id (w.tabs.getD [])
        { s with sessionWindows := s.sessionWindows ++ [windowRowOf s.nextWindowId sid wo w],
                 nextWindowId := s.nextWindowId + 1 }).sessionWindows,
        r.sessionId = sid → r.windowOrder < wo + 1 := by
      rw [hT4]
      intro r hr hsid
      rcases List.mem_append.mp hr with hold | hnew
      · have := hOrd r hold hsid
        omega
      · have hr1 : r = windowRowOf s.nextWindowId sid wo w := by simpa using hnew
        subst hr1
        show (windowRowOf s.nextWindowId sid wo w).windowOrder < wo + 1
        have : (windowRowOf s.nextWindowId sid wo w).windowOrder = wo := rfl
        omega
    obtain ⟨s2, hrec, hW1, hW2, hW3, hW4, hW5, hW6⟩ := ih (wo + 1) _ hOrd2
    refine ⟨s2, hrec, ?_, ?_, ?_, ?_, ?_, ?_⟩
    · rw [hW1, hT4, hT5]
      simp [windowRowsFrom, List.append_assoc]
    · rw [hW2, hT1, hT2, hT5]
      have hid : (windowRowOf s.nextWindowId sid wo w).id = s.nextWindowId := rfl
      simp [sessionTabRowsFrom, hid, List.append_assoc]
    · rw [hW3, hT3]
    · rw [hW4, hT5]
      dsimp only
      simp only [List.length_cons]
      omega
    · rw [hW5, hT2]
      dsimp only
      simp only [totalTabCount]
      omega
    · rw [hW6, hT6]

theorem createSession_spec (s : Store) (u : Int) (i : String) (d : SessionData)
    (sessionId : String) (now : Int)
    (hFresh : ∀ r ∈ s.sessions, r.sessionId ≠ sessionId)
    (hNoW : ∀ w ∈ s.sessionWindows, w.sessionId ≠ s.nextSessionId) :
    ∃ s2, createSession s u i d sessionId now =
        .ok ⟨sessionId, d.name, d.description, d.tags, d.totalTabs, d.totalWindows, now⟩ s2 ∧
      s2.sessions = s.sessions ++ [sessionRowOf s.nextSessionId u i sessionId d now] ∧
      s2.sessionWindows = s.sessionWindows ++
        windowRowsFrom s.nextWindowId s.nextSessionId 0 (d.windows.getD []) ∧
      s2.sessionTabs = s.sessionTabs ++
        sessionTabRowsFrom s.nextTabId s.nextWindowId (d.windows.getD []) := by
  have hguard : (s.sessions.any (fun r => r.userId == u && r.sessionId == sessionId)) = false := by
    rw [List.any_eq_false]
    intro r hr
    simp only [Bool.and_eq_true, beq_iff_eq, not_and]
    intro _ hsid
    exact hFresh r hr hsid
  have hfind : ((s.sessions ++ [sessionRowOf s.nextSessionId u i sessionId d now]).find?
      (fun r => r.sessionId == sessionId)) =
      some (sessionRowOf s.nextSessionId u i sessionId d now) := by
    rw [find?_append_of_none _ _ _ (List.find?_eq_none.mpr ?_)]
    · rw [List.find?_cons]
      have hp : ((sessionRowOf s.nextSessionId u i sessionId d now).sessionId == sessionId)
          = true := by
        have h1 : (sessionRowOf s.nextSessionId u i sessionId d now).sessionId = sessionId := rfl
        simp [h1]
      rw [hp]
    · intro r hr
      simpa using hFresh r hr
  have hfind2 : (({ s with
      sessions := s.sessions ++ [sessionRowOf s.nextSessionId u i sessionId d now],
      nextSessionId := s.nextSessionId + 1 } : Store)).sessions.find?
      (fun r => r.sessionId == sessionId) =
      some (sessionRowOf s.nextSessionId u i sessionId d now) := hfind
  simp only [createSession]
  rw [if_neg (by simp [hguard])]
  rw [hfind2]
  dsimp only
  have hOrd0 : ∀ r ∈ ({ s with
      sessions := s.sessions ++ [sessionRowOf s.nextSessionId u i sessionId d now],
      nextSessionId := s.nextSessionId + 1 } : Store).sessionWindows,
      r.sessionId = (sessionRowOf s.nextSessionId u i sessionId d now).id →
      r.windowOrder < 0 := by
    intro r hr hsid
    exact absurd hsid (hNoW r hr)
  obtain ⟨s2, hrec, hW1, hW2, hW3, hW4, hW5, hW6⟩ :=
    insertWindows_spec (sessionRowOf s.nextSessionId u i sessionId d now).id
      (d.windows.getD []) 0 _ hOrd0
  rw [hrec]
  exact ⟨s2, rfl, by rw [hW3], by rw [hW1]; rfl, by rw [hW2]⟩

theorem sortByKey_eq_self {α : Type} (key : α → Int) (l : List α)
    (h : List.Pairwise (fun a b => key a ≤ key b) l) : sortByKey key l = l := by
  induction l with
  | nil => rfl
  | cons x rest ih =>
    simp only [sortByKey]
    rw [ih (List.pairwise_cons.mp h).2]
    cases rest with
    | nil => rfl
    | cons y r2 =>
      simp only [insertByKey]
      rw [if_pos ((List.pairwise_cons.mp h).1 y (by simp))]

theorem tabRowsFrom_swid (tid swid : Nat) (ts : List TabInput) :
    ∀ r ∈ tabRowsFrom tid swid ts, r.sessionWindowId = swid := by
  induction ts generalizing tid with
  | nil => simp [tabRowsFrom]
  | cons t rest ih =>
    intro r hr
    rcases List.mem_cons.mp hr with h | h
    · subst h; rfl
    · exact ih (tid + 1) r h

theorem sessionTabRowsFrom_ge (tid wid : Nat) (ws : List WindowInput) :
    ∀ r ∈ sessionTabRowsFrom tid wid ws, wid ≤ r.sessionWindowId := by
  induction ws generalizing tid wid with
  | nil => simp [sessionTabRowsFrom]
  | cons w rest ih =>
    intro r hr
    rcases List.mem_append.mp hr with h | h
    · rw [tabRowsFrom_swid tid wid (w.tabs.getD []) r h]
    · have := ih (tid + (w.tabs.getD []).length) (wid + 1) r h
      omega

theorem windowRowsFrom_order_ge (wid sid : Nat) (wo : Int) (ws : List WindowInput) :
    ∀ r ∈ windowRowsFrom wid sid wo ws, wo ≤ r.windowOrder := by
  induction ws generalizing wid wo with
  | nil => simp [windowRowsFrom]
  | cons w rest ih =>
    intro r hr
    rcases List.mem_cons.mp hr with h | h
    · subst h
      show wo ≤ (windowRowOf wid sid wo w).windowOrder
      have : (windowRowOf wid sid wo w).windowOrder = wo := rfl
      omega
    · have := ih (wid + 1) (wo + 1) r h
      omega

theorem windowRowsFrom_order_pairwise (wid sid : Nat) (wo : Int) (ws : List WindowInput) :
    List.Pairwise (fun a b => a.windowOrder ≤ b.windowOrder)
      (windowRowsFrom wid sid wo ws) := by
  induction ws generalizing wid wo with
  | nil => exact List.Pairwise.nil
  | cons w rest ih =>
    refine List.Pairwise.cons ?_ (ih (wid + 1) (wo + 1))
    intro b hb
    have h1 : (windowRowOf wid sid wo w).windowOrder = wo := rfl
    have h2 := windowRowsFrom_order_ge (wid + 1) sid (wo + 1) rest b hb
    omega

theorem windowRowsFrom_sessionId (wid sid : Nat) (wo : Int) (ws : List WindowInput) :
    ∀ r ∈ windowRowsFrom wid sid wo ws, r.sessionId = sid := by
  induction ws generalizing wid wo with
  | nil => simp [windowRowsFrom]
  | cons w rest ih =>
    intro r hr
    rcases List.mem_cons.mp hr with h | h
    · subst h; rfl
    · exact ih (wid + 1) (wo + 1) r h

theorem tabRowsFrom_index_ge (k tid swid : Nat) (ts : List TabInput)
    (hsafe : tabsSafeFrom k ts = true) :
    ∀ r ∈ tabRowsFrom tid swid ts, (k : Int) ≤ r.tabIndex := by
  induction ts generalizing k tid with
  | nil => simp [tabRowsFrom]
  | cons t rest ih =>
    simp only [tabsSafeFrom, Bool.and_eq_true] at hsafe
    intro r hr
    rcases List.mem_cons.mp hr with h | h
    · subst h
      show (k : Int) ≤ (tabRowOf tid swid t).tabIndex
      have hidx : t.index = some (k : Int) := by
        have := hsafe.1
        simp only [tabSafe, Bool.and_eq_true, beq_iff_eq] at this
        exact this.1.1.1.1.1.2
      have : (tabRowOf tid swid t).tabIndex = jsOrInt t.index 0 := rfl
      rw [this, hidx]
      simp only [jsOrInt]
      by_cases hk : (k : Int) == 0
      · rw [if_pos hk]
        simp only [beq_iff_eq] at hk
        omega
      · rw [if_neg hk]
    · have := ih (k + 1) (tid + 1) hsafe.2 r h
      omega

theorem tabRowsFrom_index_pairwise (k tid swid : Nat) (ts : List TabInput)
    (hsafe : tabsSafeFrom k ts = true) :
    List.Pairwise (fun a b => a.tabIndex ≤ b.tabIndex) (tabRowsFrom tid swid ts) := by
  induction ts generalizing k tid with
  | nil => exact List.Pairwise.nil
  | cons t rest ih =>
    simp only [tabsSafeFrom, Bool.and_eq_true] at hsafe
    refine List.Pairwise.cons ?_ (ih (k + 1) (tid + 1) hsafe.2)
    intro b hb
    have hidx : t.index = some (k : Int) := by
      have := hsafe.1
      simp only [tabSafe, Bool.and_eq_true, beq_iff_eq] at this
      exact this.1.1.1.1.1.2
    have h1 : (tabRowOf tid swid t).tabIndex = jsOrInt t.index 0 := rfl
    have h2 := tabRowsFrom_index_ge (k + 1) (tid + 1) swid rest hsafe.2 b hb
    rw [h1, hidx]
    simp only [jsOrInt]
    by_cases hk : (k : Int) == 0
    · rw [if_pos hk]
      simp only [beq_iff_eq] at hk
      omega
    · rw [if_neg hk]
      omega

theorem tabSafe_roundtrip (k tid swid : Nat) (t : TabInput) (h : tabSafe k t = true) :
    tabOutOfRow (tabRowOf tid swid t) = TabInput.asOutput t := by
  simp only [tabSafe, Bool.and_eq_true, beq_iff_eq, bne_iff_ne, ne_eq] at h
  obtain ⟨⟨⟨⟨⟨⟨hid, hidx⟩, htitle⟩, hact⟩, hpin⟩, hgrp⟩, hfav⟩ := h
  obtain ⟨tid0, htid0⟩ := Option.isSome_iff_exists.mp hid
  obtain ⟨act0, hact0⟩ := Option.isSome_iff_exists.mp hact
  obtain ⟨pin0, hpin0⟩ := Option.isSome_iff_exists.mp hpin
  have hid' : jsOrInt t.id 0 = t.id.getD 0 := by
    rw [htid0]
    simp only [jsOrInt, Option.getD_some]
    by_cases h0 : tid0 == 0
    · rw [if_pos h0]
      simp only [beq_iff_eq] at h0
      omega
    · rw [if_neg h0]
  have hidx' : jsOrInt t.index 0 = t.index.getD 0 := by
    rw [hidx]
    simp only [jsOrInt, Option.getD_some]
    by_cases h0 : (k : Int) == 0
    · rw [if_pos h0]
      simp only [beq_iff_eq] at h0
      omega
    · rw [if_neg h0]
  have htitle' : jsStrOrNull t.title = t.title := by
    cases ht : t.title with
    | none => rfl
    | some str =>
      rw [ht] at htitle
      simp only [jsStrOrNull]
      rw [if_neg (by simpa using htitle)]
  have hfav' : jsStrOrNull t.favIconUrl = t.favIconUrl := by
    cases hf : t.favIconUrl with
    | none => rfl
    | some str =>
      rw [hf] at hfav
      simp only [jsStrOrNull]
      rw [if_neg (by simpa using hfav)]
  have hgrp' : jsIntOrNull t.groupId = t.groupId := by
    cases hg : t.groupId with
    | none => rfl
    | some g =>
      rw [hg] at hgrp
      simp only [jsIntOrNull]
      rw [if_neg (by simpa using hgrp)]
  have hact' : ((jsTruthyBit t.active) != 0) = t.active.getD false := by
    rw [hact0]
    cases act0 <;> simp [jsTruthyBit]
  have hpin' : ((jsTruthyBit t.pinned) != 0) = t.pinned.getD false := by
    rw [hpin0]
    cases pin0 <;> simp [jsTruthyBit]
  simp only [tabOutOfRow, tabRowOf, TabInput.asOutput]
  rw [hid', hidx', htitle', hfav', hgrp', hact', hpin']

theorem tabRowsFrom_map_out (k tid swid : Nat) (ts : List TabInput)
    (hsafe : tabsSafeFrom k ts = true) :
    (tabRowsFrom tid swid ts).map tabOutOfRow = ts.map TabInput.asOutput := by
  induction ts generalizing k tid with
  | nil => rfl
  | cons t rest ih =>
    simp only [tabsSafeFrom, Bool.and_eq_true] at hsafe
    simp only [tabRowsFrom, List.map_cons]
    rw [tabSafe_roundtrip k tid swid t hsafe.1, ih (k + 1) (tid + 1) hsafe.2]

theorem filter_eq_nil_of_false {α : Type} (l : List α) (p : α → Bool)
    (h : ∀ a ∈ l, p a = false) : l.filter p = [] := by
  induction l with
  | nil => rfl
  | cons a rest ih =>
    rw [List.filter_cons, if_neg (by simp [h a (by simp)])]
    exact ih (fun x hx => h x (by simp [hx]))

theorem filter_eq_self_of_true {α : Type} (l : List α) (p : α → Bool)
    (h : ∀ a ∈ l, p a = true) : l.filter p = l := by
  induction l with
  | nil => rfl
  | cons a rest ih =>
    rw [List.filter_cons, if_pos (h a (by simp))]
    rw [ih (fun x hx => h x (by simp [hx]))]

/-- Reading back the windows inserted by `createSession`: under the safety
conditions, mapping `getSession`'s window assembly over the inserted window
rows returns exactly the supplied windows (tabs in supplied order with
supplied values). -/
theorem assembleWindows (sF : Store) (sid : Nat) (ws : List WindowInput) (wid tid : Nat)
    (wo : Int) (pre : List SessionTabRow)
    (htabs : sF.sessionTabs = pre ++ sessionTabRowsFrom tid wid ws)
    (hpre : ∀ t ∈ pre, t.sessionWindowId < wid)
    (hsafe : windowsSafe ws = true) :
    (windowRowsFrom wid sid wo ws).map (windowOutOfRow sF) =
      ws.map WindowInput.asOutput := by
  induction ws generalizing wid tid wo pre with
  | nil => rfl
  | cons w rest ih =>
    simp only [windowsSafe, Bool.and_eq_true] at hsafe
    have hwsafe := hsafe.1
    simp only [windowSafe, Bool.and_eq_true] at hwsafe
    obtain ⟨⟨⟨⟨hid, hfoc⟩, hinc⟩, htype⟩, htabsafe⟩ := hwsafe
    have hfilter : sF.sessionTabs.filter (fun t => t.sessionWindowId == wid) =
        tabRowsFrom tid wid (w.tabs.getD []) := by
      rw [htabs]
      simp only [sessionTabRowsFrom]
      rw [← List.append_assoc, List.filter_append, List.filter_append]
      rw [filter_eq_nil_of_false pre _ (fun t ht => by
        simp only [beq_eq_false_iff_ne, ne_eq]
        have := hpre t ht
        omega)]
      rw [filter_eq_self_of_true (tabRowsFrom tid wid (w.tabs.getD [])) _ (fun t ht => by
        simp only [beq_iff_eq]
        exact tabRowsFrom_swid tid wid (w.tabs.getD []) t ht)]
      rw [filter_eq_nil_of_false
        (sessionTabRowsFrom (tid + (w.tabs.getD []).length) (wid + 1) rest) _ (fun t ht => by
        simp only [beq_eq_false_iff_ne, ne_eq]
        have := sessionTabRowsFrom_ge (tid + (w.tabs.getD []).length) (wid + 1) rest t ht
        omega)]
      simp
    have hhead : windowOutOfRow sF (windowRowOf wid sid wo w) = WindowInput.asOutput w := by
      simp only [windowOutOfRow, windowRowOf, WindowInput.asOutput]
      rw [hfilter,
        sortByKey_eq_self _ _ (tabRowsFrom_index_pairwise 0 tid wid _ htabsafe),
        tabRowsFrom_map_out 0 tid wid _ htabsafe]
      cases hidv : w.id with
      | none => rw [hidv] at hid; simp at hid
      | some k0 =>
        rw [hidv] at hid
        cases htyv : w.type with
        | none => rw [htyv] at htype; simp at htype
        | some ty0 =>
          rw [htyv] at htype
          obtain ⟨f0, hf0⟩ := Option.isSome_iff_exists.mp hfoc
          obtain ⟨i0, hi0⟩ := Option.isSome_iff_exists.mp hinc
          have h1 : jsOrInt (some k0) wo = k0 := by
            simp only [jsOrInt]
            rw [if_neg (by simpa using hid)]
          have h2 : jsOrStr (some ty0) "normal" = ty0 := by
            simp only [jsOrStr]
            rw [if_neg (by simpa using htype)]
          rw [hf0, hi0, h1, h2]
          have h3 : ((jsTruthyBit (some f0)) != 0) = f0 := by cases f0 <;> simp [jsTruthyBit]
          have h4 : ((jsTruthyBit (some i0)) != 0) = i0 := by cases i0 <;> simp [jsTruthyBit]
          rw [h3, h4]
          simp
    have htail := ih (wid + 1) (tid + (w.tabs.getD []).length) (wo + 1)
      (pre ++ tabRowsFrom tid wid (w.tabs.getD []))
      (by rw [htabs]; simp [sessionTabRowsFrom, List.append_assoc])
      (by
        intro t ht
        rcases List.mem_append.mp ht with h | h
        · have := hpre t h
          omega
        · have := tabRowsFrom_swid tid wid (w.tabs.getD []) t h
          omega)
      hsafe.2
    simp only [windowRowsFrom, List.map_cons]
    rw [hhead, htail]

/-- C6, counterexample to the claim as stated: a session created with one
window holding one tab whose `title` is the empty string succeeds, but
`getSession` returns that tab with `title = null`, not the supplied `""` —
`tab.title || null` coerces the falsy empty string to null at insert time,
so the round-trip does not return "the same field values as supplied" for
every session tree. -/
theorem c6_counterexample :
    createSession Store.empty 1 "I6" c6data "s6" 100 = SessionOutcome.ok
      { sessionId := "s6", name := "n", description := none, tags := none,
        totalTabs := none, totalWindows := none, capturedAt := 100 } c6store ∧
    ((getSession c6store 1 "s6").map
      (fun o => o.windows.map (fun w => w.tabs.map (fun t => t.title)))) = some [[none]] ∧
    ((c6data.windows.getD []).map
      (fun w => (w.tabs.getD []).map (fun t => t.title))) = [[some ""]] := by
  decide

/-- C6, amended: `createSession` followed by `getSession` reconstructs the
windows in supplied order and each window's tabs in supplied order with the
same field values as supplied, PROVIDED the snapshot is round-trip safe:
the session id is fresh, the store's id counters dominate the referenced
ids, every window carries an explicit non-zero id, explicit booleans and an
explicit non-empty type, and every tab carries an explicit id, explicit
booleans, an `index` equal to its position in its window's list, and no
empty-string `title`/`favIconUrl` or zero `groupId` (values the insert's JS
falsy coercions would rewrite, as the counterexample shows). -/
theorem c6_session_round_trip (s : Store) (u : Int) (i : String) (d : SessionData)
    (sessionId : String) (now : Int)
    (hFresh : ∀ r ∈ s.sessions, r.sessionId ≠ sessionId)
    (hNoW : ∀ w ∈ s.sessionWindows, w.sessionId < s.nextSessionId)
    (hNoT : ∀ t ∈ s.sessionTabs, t.sessionWindowId < s.nextWindowId)
    (hsafe : windowsSafe (d.windows.getD []) = true) :
    ∃ res s2 out, createSession s u i d sessionId now = .ok res s2 ∧
      res.sessionId = sessionId ∧
      getSession s2 u sessionId = some out ∧
      out.sessionId = sessionId ∧
      out.windows = (d.windows.getD []).map WindowInput.asOutput := by
  obtain ⟨s2, hcreate, hS, hW, hT⟩ := createSession_spec s u i d sessionId now hFresh
    (fun w hw => by
      have := hNoW w hw
      omega)
  have hfind : s2.sessions.find? (fun r => r.userId == u && r.sessionId == sessionId) =
      some (sessionRowOf s.nextSessionId u i sessionId d now) := by
    rw [hS]
    rw [find?_append_of_none _ _ _ (List.find?_eq_none.mpr (fun r hr => by
      simp only [Bool.and_eq_true, beq_iff_eq, not_and]
      intro _ hsid
      exact hFresh r hr hsid))]
    rw [List.find?_cons]
    have hp : ((sessionRowOf s.nextSessionId u i sessionId d now).userId == u &&
        (sessionRowOf s.nextSessionId u i sessionId d now).sessionId == sessionId) = true := by
      have h1 : (sessionRowOf s.nextSessionId u i sessionId d now).userId = u := rfl
      have h2 : (sessionRowOf s.nextSessionId u i sessionId d now).sessionId = sessionId := rfl
      simp [h1, h2]
    rw [hp]
  have hrowId : (sessionRowOf s.nextSessionId u i sessionId d now).id = s.nextSessionId := rfl
  have hwfilter : s2.sessionWindows.filter (fun w => w.sessionId == s.nextSessionId) =
      windowRowsFrom s.nextWindowId s.nextSessionId 0 (d.windows.getD []) := by
    rw [hW, List.filter_append]
    rw [filter_eq_nil_of_false s.sessionWindows _ (fun w hw => by
      simp only [beq_eq_false_iff_ne, ne_eq]
      have := hNoW w hw
      omega)]
    rw [filter_eq_self_of_true _ _ (fun w hw => by
      simp only [beq_iff_eq]
      exact windowRowsFrom_sessionId s.nextWindowId s.nextSessionId 0 _ w hw)]
    simp
  have hsort := sortByKey_eq_self (fun w => w.windowOrder)
    (windowRowsFrom s.nextWindowId s.nextSessionId 0 (d.windows.getD []))
    (windowRowsFrom_order_pairwise s.nextWindowId s.nextSessionId 0 (d.windows.getD []))
  have hmap := assembleWindows s2 s.nextSessionId (d.windows.getD []) s.nextWindowId
    s.nextTabId 0 s.sessionTabs (by rw [hT]) hNoT hsafe
  refine ⟨_, s2,
    { sessionId := (sessionRowOf s.nextSessionId u i sessionId d now).sessionId,
      name := (sessionRowOf s.nextSessionId u i sessionId d now).name,
      description := (sessionRowOf s.nextSessionId u i sessionId d now).description,
      tags := (sessionRowOf s.nextSessionId u i sessionId d now).tags,
      capturedAt := (sessionRowOf s.nextSessionId u i sessionId d now).capturedAt,
      tabCount := (sessionRowOf s.nextSessionId u i sessionId d now).tabCount,
      windowCount := (sessionRowOf s.nextSessionId u i sessionId d now).windowCount,
      windows :=
        (sortByKey (fun w => w.windowOrder)
          (s2.sessionWindows.filter
            (fun w => w.sessionId ==
              (sessionRowOf s.nextSessionId u i sessionId d now).id))).map
          (windowOutOfRow s2) },
    hcreate, rfl, ?_, rfl, ?_⟩
  · simp only [getSession, hfind]
  · show (sortByKey (fun w => w.windowOrder)
        (s2.sessionWindows.filter
          (fun w => w.sessionId == (sessionRowOf s.nextSessionId u i sessionId d now).id))).map
        (windowOutOfRow s2) = (d.windows.getD []).map WindowInput.asOutput
    rw [hrowId, hwfilter, hsort, hmap]

/-- C6, witness for the amended theorem at a concrete safe snapshot. -/
theorem c6_session_round_trip_witness :
    ∃ res s2 out, createSession Store.empty 1 "I6" c6wdata "s6w" 50 = .ok res s2 ∧
      res.sessionId = "s6w" ∧
      getSession s2 1 "s6w" = some out ∧
      out.sessionId = "s6w" ∧
      out.windows = (c6wdata.windows.getD []).map WindowInput.asOutput :=
  c6_session_round_trip Store.empty 1 "I6" c6wdata "s6w" 50 (by decide) (by decide)
    (by decide) (by decide)

end TabSync
